import Mathlib

/-!
Verification development for the pharma-search matching, normalization and
grouping engine (`backend/src/preprocessor.py`, `backend/src/normalizer.py`,
`backend/src/search_engine.py`, `backend/src/search_engine_duckdb.py`,
`backend/src/similarity_matcher.py`).

The Python code is shallowly embedded: pure functions become Lean functions,
the result cache becomes explicit state passing, prices / scores / clock
readings become rationals, and external collaborators (the SQL database, the
FAISS index, the sentence encoder, Python's salted `hash`, `hashlib.md5`)
become explicit function parameters.  Regular-expression work in the source is
embedded through a small backtracking matcher with Python `re.search` /
`re.sub` / `re.findall` semantics (leftmost match, ordered alternation, greedy
quantifiers), below.
-/

/-! ### Python-style string primitives -/

/-- Word character as in Python `\w` (ASCII fragment: the titles and patterns
treated in the theorems below are ASCII). -/
def isWordChar (c : Char) : Bool := c.isAlphanum || c = '_'

/-- Python `str.lower()` (ASCII fragment). -/
def pyLower (s : List Char) : List Char := s.map Char.toLower

/-- Python `str.strip()`: remove leading and trailing whitespace. -/
def pyStrip (s : List Char) : List Char :=
  ((s.dropWhile Char.isWhitespace).reverse.dropWhile Char.isWhitespace).reverse

/-- Python `str.split()` with no argument: split on whitespace runs, no empty
parts. -/
def splitWS (s : List Char) : List (List Char) :=
  let rec go : List Char → List Char → List (List Char)
    | [], acc => if acc.isEmpty then [] else [acc.reverse]
    | c :: rest, acc =>
      if c.isWhitespace then
        if acc.isEmpty then go rest [] else acc.reverse :: go rest []
      else go rest (c :: acc)
  go s []

/-- Python `str.split(sep)` with a one-character separator: empty parts are
kept, and splitting the empty string yields one empty part. -/
def splitOnChar (sep : Char) (s : List Char) : List (List Char) :=
  let rec go : List Char → List Char → List (List Char)
    | [], acc => [acc.reverse]
    | c :: rest, acc =>
      if c = sep then acc.reverse :: go rest [] else go rest (c :: acc)
  go s []

/-- Python `sep.join(parts)`. -/
def joinWith (sep : List Char) : List (List Char) → List Char
  | [] => []
  | [x] => x
  | x :: y :: rest => x ++ sep ++ joinWith sep (y :: rest)

/-- Python `str.title()`: an alphabetic character is upper-cased when the
previous character is not alphabetic, lower-cased otherwise. -/
def pyTitle (s : List Char) : List Char :=
  let rec go : Option Char → List Char → List Char
    | _, [] => []
    | prev, c :: rest =>
      let c2 := if c.isAlpha then
          (if (match prev with | some p => p.isAlpha | none => false) then
            c.toLower else c.toUpper)
        else c
      c2 :: go (some c) rest
  go none s

/-- Containment of one character list in another (Python `sub in s`). -/
def listContains (sub s : List Char) : Bool :=
  let rec go : List Char → Bool
    | [] => sub.isEmpty
    | c :: rest => sub.isPrefixOf (c :: rest) || go rest
  go s

/-- Python string comparison: lexicographic by code point. -/
def pyStrLt (a b : List Char) : Bool :=
  let rec go : List Char → List Char → Bool
    | [], [] => false
    | [], _ :: _ => true
    | _ :: _, [] => false
    | x :: xs, y :: ys => if x = y then go xs ys else decide (x < y)
  go a b

/-! ### Stable sorting (Python `list.sort` is stable) -/

/-- Insert `x` into `l` before the first element not strictly smaller than it;
combined with `stableSortBy` this reproduces the stability of Python sorts:
elements with equal keys keep their original relative order. -/
def stableInsert (lt : α → α → Bool) (x : α) : List α → List α
  | [] => [x]
  | y :: ys => if lt y x then y :: stableInsert lt x ys else x :: y :: ys

/-- Stable sort, ascending with respect to the strict comparison `lt`. -/
def stableSortBy (lt : α → α → Bool) : List α → List α
  | [] => []
  | x :: xs => stableInsert lt x (stableSortBy lt xs)

theorem stableInsert_mem (lt : α → α → Bool) (x : α) (l : List α) (b : α) :
    b ∈ stableInsert lt x l ↔ b = x ∨ b ∈ l := by
  induction l with
  | nil => simp [stableInsert]
  | cons y ys ih =>
    cases h : lt y x with
    | true => simp only [stableInsert, h, if_true, List.mem_cons, ih]; tauto
    | false =>
      simp only [stableInsert, h, Bool.false_eq_true, if_false, List.mem_cons]

theorem stableSortBy_mem (lt : α → α → Bool) (l : List α) (b : α) :
    b ∈ stableSortBy lt l ↔ b ∈ l := by
  induction l with
  | nil => simp [stableSortBy]
  | cons x xs ih =>
    simp [stableSortBy, stableInsert_mem, ih]

theorem stableInsert_pairwise (lt : α → α → Bool)
    (hneg : ∀ a b c, lt b a = false → lt c b = false → lt c a = false)
    (hasym : ∀ a b, lt a b = true → lt b a = false)
    (x : α) (l : List α) (hl : l.Pairwise (fun a b => lt b a = false)) :
    (stableInsert lt x l).Pairwise (fun a b => lt b a = false) := by
  induction l with
  | nil => simp [stableInsert]
  | cons y ys ih =>
    rcases List.pairwise_cons.mp hl with ⟨hy, hys⟩
    cases h : lt y x with
    | true =>
      simp only [stableInsert, h, if_true]
      refine List.pairwise_cons.mpr ⟨?_, ih hys⟩
      intro b hb
      rcases (stableInsert_mem lt x ys b).mp hb with rfl | hmem
      · exact hasym y b h
      · exact hy b hmem
    | false =>
      simp only [stableInsert, h, Bool.false_eq_true, if_false]
      refine List.pairwise_cons.mpr ⟨?_, hl⟩
      intro b hb
      rcases List.mem_cons.mp hb with rfl | hmem
      · exact h
      · exact hneg x y b h (hy b hmem)

theorem stableSortBy_pairwise (lt : α → α → Bool)
    (hneg : ∀ a b c, lt b a = false → lt c b = false → lt c a = false)
    (hasym : ∀ a b, lt a b = true → lt b a = false)
    (l : List α) :
    (stableSortBy lt l).Pairwise (fun a b => lt b a = false) := by
  induction l with
  | nil => simp [stableSortBy]
  | cons x xs ih =>
    exact stableInsert_pairwise lt hneg hasym x _ ih

/-! ### A small regular-expression engine with Python `re` semantics

Patterns from the source are transliterated into `RE` values.  The matcher is
a backtracking matcher: ordered alternation (leftmost alternative first),
greedy `*` / `+` / `?`, `re.search` tries successive start positions and
returns the leftmost match, exactly as CPython's `re` does on these patterns.
Capture groups record the last text they matched.  A fuel argument bounds the
nesting depth of the matcher; it is always called with enough fuel for the
patterns and strings involved (each `*` iteration consumes at least one input
character, so pattern size plus input length bounds the depth). -/

inductive RE where
  | eps : RE
  | cls : (Char → Bool) → RE
  | seq : RE → RE → RE
  | alt : RE → RE → RE
  | star : RE → RE
  | opt : RE → RE
  | grp : Nat → RE → RE
  | bnd : RE
  | bos : RE
  | eos : RE
  | nla : RE → RE

/-- Literal character. -/
def RE.chr (c : Char) : RE := RE.cls (fun x => x = c)

/-- Literal word. -/
def RE.lit (w : String) : RE :=
  (w.data.map RE.chr).foldr RE.seq RE.eps

/-- Ordered alternation of a list of alternatives (first alternative tried
first, as in Python). -/
def RE.alts : List RE → RE
  | [] => RE.cls (fun _ => false)
  | [r] => r
  | r :: rest => RE.alt r (RE.alts rest)

/-- Ordered alternation of literal words, e.g. `(mg|mcg|iu)`. -/
def RE.words (ws : List String) : List RE := ws.map RE.lit

/-- Plus: one or more, greedy. -/
def RE.plus1 (r : RE) : RE := RE.seq r (RE.star r)

/-- Capture environment: group number to last matched text. -/
def REnv := List (Nat × List Char)

/-- Record a group capture, overriding a previous capture of the same group
(Python keeps the last match of a group). -/
def setGrp (n : Nat) (v : List Char) : REnv → REnv
  | [] => [(n, v)]
  | (m, w) :: rest => if m = n then (n, v) :: rest else (m, w) :: setGrp n v rest

/-- Look up a capture (Python `match.group(n)`; `none` when the group did not
participate in the match). -/
def getGrp (n : Nat) : REnv → Option (List Char)
  | [] => none
  | (m, w) :: rest => if m = n then some w else getGrp n rest

/-- Result handed to a match continuation: previous character (for `\b`),
remaining input, captures. -/
structure MRes where
  prev : Option Char
  rest : List Char
  env : REnv

/-- Word-boundary test at the point between `prev` and `s`. -/
def atBoundary (prev : Option Char) (s : List Char) : Bool :=
  let l := match prev with | some c => isWordChar c | none => false
  let r := match s with | c :: _ => isWordChar c | [] => false
  l != r

/-- The backtracking matcher in continuation-passing style.  `prev` is the
character just before the current position (for `\b` and `^`). -/
def mtch : Nat → RE → Option Char → List Char → REnv →
    (Option Char → List Char → REnv → Option MRes) → Option MRes
  | 0, _, _, _, _, _ => none
  | fuel + 1, re, prev, s, env, k =>
    match re with
    | .eps => k prev s env
    | .cls p =>
      match s with
      | [] => none
      | c :: rest => if p c then k (some c) rest env else none
    | .seq a b => mtch fuel a prev s env (fun p2 s2 e2 => mtch fuel b p2 s2 e2 k)
    | .alt a b =>
      match mtch fuel a prev s env k with
      | some r => some r
      | none => mtch fuel b prev s env k
    | .opt a =>
      match mtch fuel a prev s env k with
      | some r => some r
      | none => k prev s env
    | .star a =>
      match mtch fuel a prev s env (fun p2 s2 e2 =>
          if s2.length < s.length then mtch fuel (.star a) p2 s2 e2 k
          else none) with
      | some r => some r
      | none => k prev s env
    | .grp n a => mtch fuel a prev s env (fun p2 s2 e2 =>
        k p2 s2 (setGrp n (s.take (s.length - s2.length)) e2))
    | .bnd => if atBoundary prev s then k prev s env else none
    | .bos => match prev with | none => k prev s env | some _ => none
    | .eos => if s.isEmpty then k prev s env else none
    | .nla a =>
      match mtch fuel a prev s env (fun p2 s2 e2 => some ⟨p2, s2, e2⟩) with
      | some _ => none
      | none => k prev s env

/-- Fuel that is always sufficient for the patterns in this file. -/
def reFuel (s : List Char) : Nat := 8 * s.length + 800

/-- A successful `re.search`: text before the match, the matched text
(`match.group(0)`), text after, captures. -/
structure MatchInfo where
  pre : List Char
  mat : List Char
  post : List Char
  env : REnv

/-- Try to match at the current position only. -/
def matchHere (re : RE) (prev : Option Char) (s : List Char) :
    Option (List Char × List Char × REnv) :=
  match mtch (reFuel s) re prev s [] (fun p2 s2 e2 => some ⟨p2, s2, e2⟩) with
  | some r => some (s.take (s.length - r.rest.length), r.rest, r.env)
  | none => none

/-- Python `re.search` from a context: `prev` is the character before the scan
start (used so that substitution can continue mid-string with correct `\b`
semantics), `seen` accumulates skipped characters in reverse. -/
def searchFrom (re : RE) : Option Char → List Char → List Char →
    Option MatchInfo
  | prev, seen, s =>
    match matchHere re prev s with
    | some (mat, post, env) => some ⟨seen.reverse, mat, post, env⟩
    | none =>
      match s with
      | [] => none
      | c :: rest => searchFrom re (some c) (c :: seen) rest

/-- Python `re.search(pattern, s)`. -/
def reSearch (re : RE) (s : List Char) : Option MatchInfo :=
  searchFrom re none [] s

/-- Python `re.sub(pattern, repl, s)` for the non-empty-match patterns used in
this code base: replaces every non-overlapping match, scanning left to right.
Each step either finds no further match or consumes at least one character, so
the input length bounds the iteration count (fuel). -/
def reSubAux (re : RE) (repl : List Char) :
    Nat → Option Char → List Char → List Char
  | 0, _, s => s
  | fuel + 1, prev, s =>
    match searchFrom re prev [] s with
    | none => s
    | some m =>
      match m.mat with
      | [] =>
        -- empty match: emit it and advance one character (matches CPython)
        match m.post with
        | [] => m.pre ++ repl
        | c :: rest => m.pre ++ repl ++ c :: reSubAux re repl fuel (some c) rest
      | _ :: _ =>
        m.pre ++ repl ++
          reSubAux re repl fuel (some (m.mat.getLastD ' ')) m.post

/-- Python `re.sub`. -/
def reSub (re : RE) (repl : String) (s : List Char) : List Char :=
  reSubAux re repl.data (s.length + 1) none s

/-- Python `re.findall` when the pattern has exactly one capture group:
returns the list of group-1 captures of successive non-overlapping matches. -/
def reFindAllG1 (re : RE) (s : List Char) : List (List Char) :=
  let rec go : Nat → Option Char → List Char → List (List Char)
    | 0, _, _ => []
    | fuel + 1, prev, s =>
      match searchFrom re prev [] s with
      | none => []
      | some m =>
        let captured := (getGrp 1 m.env).getD []
        match m.mat with
        | [] =>
          match m.post with
          | [] => [captured]
          | c :: rest => captured :: go fuel (some c) rest
        | _ :: _ => captured :: go fuel (some (m.mat.getLastD ' ')) m.post
  go (s.length + 1) none s

/-- Python `re.findall` for a pattern with no capture groups: the list of
whole matches. -/
def reFindAllG0 (re : RE) (s : List Char) : List (List Char) :=
  let rec go : Nat → Option Char → List Char → List (List Char)
    | 0, _, _ => []
    | fuel + 1, prev, s =>
      match searchFrom re prev [] s with
      | none => []
      | some m =>
        match m.mat with
        | [] =>
          match m.post with
          | [] => [[]]
          | c :: rest => [] :: go fuel (some c) rest
        | _ :: _ => m.mat :: go fuel (some (m.mat.getLastD ' ')) m.post
  go (s.length + 1) none s

/-- Python `re.escape` of a literal string, then used as a pattern: matching a
literal.  (All escaped literals in the source are matched literally, so the
embedding is the literal pattern itself.) -/
def RE.litList (w : List Char) : RE :=
  (w.map RE.chr).foldr RE.seq RE.eps

/-- Character-class helpers mirroring `\d`, `\s`, `\w`. -/
def RE.dig : RE := RE.cls Char.isDigit

/-- One whitespace character, `\s`. -/
def RE.wsp : RE := RE.cls Char.isWhitespace

/-- One word character, `\w`. -/
def RE.wrd : RE := RE.cls isWordChar

/-- Zero or more whitespace, `\s*`. -/
def RE.wsps : RE := RE.star RE.wsp

/-- Sequence of a list of pieces. -/
def RE.cat (rs : List RE) : RE := rs.foldr RE.seq RE.eps

/-! ### rapidfuzz string-similarity primitives

`rapidfuzz.fuzz.ratio` is the normalized InDel similarity
`100 * (1 - dist / (|a| + |b|))` where `dist` is the Levenshtein distance with
insertions and deletions only, i.e. `|a| + |b| - 2 * LCS(a, b)`.
`token_sort_ratio` applies `ratio` after sorting the whitespace-split tokens,
`token_set_ratio` compares intersection and differences of the token sets, and
`partial_ratio` takes the best `ratio` of the shorter string against an
aligned window of the longer one.  These are external-library primitives; they
are embedded here from their documented semantics. -/

/-- One row update of the longest-common-subsequence dynamic program. -/
def lcsStep (c : Char) : List Char → Nat → Nat → List Nat → List Nat
  | [], _, _, _ => []
  | bc :: brest, diag, left, row =>
    match row with
    | [] => []
    | up :: rowRest =>
      let cur := if c = bc then diag + 1 else max left up
      cur :: lcsStep c brest up cur rowRest

/-- New LCS row after consuming character `c` of the first string. -/
def lcsNewRow (c : Char) (b : List Char) (oldRow : List Nat) : List Nat :=
  match oldRow with
  | [] => []
  | r0 :: rs => 0 :: lcsStep c b r0 0 rs

/-- Length of a longest common subsequence. -/
def lcsLen (a b : List Char) : Nat :=
  (a.foldl (fun row c => lcsNewRow c b row)
    (List.replicate (b.length + 1) 0)).getLastD 0

/-- `rapidfuzz.fuzz.ratio`: normalized InDel similarity scaled to `[0, 100]`. -/
def ratioSim (a b : List Char) : ℚ :=
  if a.length + b.length = 0 then 100
  else (200 * (lcsLen a b : ℚ)) / ((a.length : ℚ) + (b.length : ℚ))

/-- Sort a list of token strings by code point (Python `sorted`). -/
def sortStrs (xs : List (List Char)) : List (List Char) :=
  stableSortBy pyStrLt xs

/-- Deduplicate keeping the first occurrence (used to model Python sets whose
contents are only ever read back in sorted order). -/
def dedupKeepFirst (xs : List (List Char)) : List (List Char) :=
  let rec go : List (List Char) → List (List Char) → List (List Char)
    | [], _ => []
    | x :: rest, seen =>
      if seen.contains x then go rest seen else x :: go rest (x :: seen)
  go xs []

/-- `rapidfuzz.fuzz.token_sort_ratio`. -/
def tokenSortSim (a b : List Char) : ℚ :=
  ratioSim (joinWith [' '] (sortStrs (splitWS a)))
    (joinWith [' '] (sortStrs (splitWS b)))

/-- `rapidfuzz.fuzz.token_set_ratio` (documented algorithm: compare the sorted
token intersection against each side's intersection-plus-difference string and
the two full strings, take the maximum ratio). -/
def tokenSetSim (a b : List Char) : ℚ :=
  let t1 := dedupKeepFirst (sortStrs (splitWS a))
  let t2 := dedupKeepFirst (sortStrs (splitWS b))
  let inter := t1.filter (fun x => t2.contains x)
  let d1 := t1.filter (fun x => !t2.contains x)
  let d2 := t2.filter (fun x => !t1.contains x)
  let sect := joinWith [' '] inter
  let s1 := pyStrip (sect ++ [' '] ++ joinWith [' '] d1)
  let s2 := pyStrip (sect ++ [' '] ++ joinWith [' '] d2)
  max (ratioSim sect s1) (max (ratioSim sect s2) (ratioSim s1 s2))

/-- Best ratio of `s` against the windows of `l` of length `|s|` starting at
positions `0..n`. -/
def bestWindow (s l : List Char) : Nat → ℚ
  | 0 => ratioSim s (l.take s.length)
  | n + 1 => max (ratioSim s ((l.drop (n + 1)).take s.length)) (bestWindow s l n)

/-- `rapidfuzz.fuzz.partial_ratio`: optimal alignment of the shorter string
inside the longer one (embedded as the best full window; no claim in this file
depends on its exact value). -/
def alignSim (a b : List Char) : ℚ :=
  let s := if a.length ≤ b.length then a else b
  let l := if a.length ≤ b.length then b else a
  if s.isEmpty then (if l.isEmpty then 100 else 0)
  else bestWindow s l (l.length - s.length)

/-! ### Embedding of `backend/src/preprocessor.py` (`PharmaPreprocessor`)

`unicodedata.normalize('NFKD', ·)` is the identity on the ASCII titles
considered in the theorems below and is embedded as the identity. -/

/-- Structured product identity (`preprocessor.ProductIdentity`). -/
structure ProductIdentity where
  base_name : List Char
  brand : List Char
  strength : List Char
  form : List Char
  size : List Char
  variant : List Char
  category : List Char
  normalized_name : List Char
  search_tokens : List (List Char)
  grouping_key : List Char
deriving DecidableEq, Repr

namespace PharmaPreprocessor

/-- Brand name standardization table (`self.brand_mappings`). -/
def brand_mappings : List (String × String) :=
  [("dr", "dr."), ("prof", "prof."), ("pharm", "pharma"),
   ("laboratoires", "laboratories"), ("lab", "laboratories"), ("gmbh", ""),
   ("ltd", ""), ("inc", ""), ("co", "company"), ("corp", "corporation")]

/-- Pharmaceutical form standardization (`self.form_mappings`). -/
def form_mappings : List (String × String) :=
  [("tbl", "tableta"), ("tab", "tableta"), ("tabs", "tablete"),
   ("caps", "kapsula"), ("cap", "kapsula"), ("cps", "kapsula"),
   ("syr", "sirup"), ("syrup", "sirup"), ("sol", "rastvor"),
   ("solution", "rastvor"), ("susp", "suspenzija"),
   ("suspension", "suspenzija"), ("inj", "injekcija"),
   ("injection", "injekcija"), ("oint", "mast"), ("ointment", "mast"),
   ("cr", "krema"), ("cream", "krema"), ("gel", "gel"), ("spray", "sprej"),
   ("drops", "kapi"), ("drop", "kapi"), ("powder", "prah"), ("pwd", "prah")]

/-- Dosage unit standardization (`self.dosage_mappings`). -/
def dosage_mappings : List (String × String) :=
  [("mg", "mg"), ("milligram", "mg"), ("miligram", "mg"), ("mcg", "mcg"),
   ("µg", "mcg"), ("microgram", "mcg"), ("mikrogram", "mcg"), ("g", "g"),
   ("gram", "g"), ("kg", "kg"), ("kilogram", "kg"), ("iu", "iu"),
   ("i.u.", "iu"), ("international unit", "iu"), ("ml", "ml"),
   ("milliliter", "ml"), ("mililitr", "ml"), ("l", "l"), ("liter", "l"),
   ("litr", "l"), ("%", "%"), ("percent", "%"), ("procenat", "%")]

/-- Common pharmaceutical synonyms (`self.synonym_mappings`). -/
def synonym_mappings : List (String × List String) :=
  [("vitamin", ["vit", "vitam"]),
   ("calcium", ["calc", "ca", "kalcijum"]),
   ("magnesium", ["mag", "mg", "magnezijum"]),
   ("probiotic", ["prob", "probiotik"]),
   ("omega", ["omega-3", "omega3", "n-3"]),
   ("coenzyme", ["coq", "koenzim"]),
   ("acetaminophen", ["paracetamol", "acetaminofen"]),
   ("ibuprofen", ["brufen", "advil"]),
   ("ascorbic acid", ["vitamin c", "askorbinska"])]

/-- Word-boundary wrapped alternation of literal words:
`\b(w1|w2|...)\b` with a capture group. -/
def bWords (ws : List String) : RE :=
  RE.cat [RE.bnd, RE.grp 1 (RE.alts (RE.words ws)), RE.bnd]

/-- Category detection patterns (`self.category_patterns`), in source order. -/
def category_patterns : List (String × List RE) :=
  [("vitamins",
    [bWords ["vitamin", "vit", "multivit"],
     bWords ["a", "b", "c", "d", "e", "k", "b1", "b2", "b6", "b12", "d3"],
     bWords ["thiamine", "riboflavin", "niacin", "folate", "biotin"]]),
   ("minerals",
    [bWords ["calcium", "magnesium", "zinc", "iron", "selenium"],
     bWords ["kalcijum", "magnezijum", "cink", "gvožđe"]]),
   ("probiotics",
    [bWords ["probiotic", "lactobacillus", "bifidobacterium"],
     bWords ["probiotik", "laktobacil", "bifidus"]]),
   ("supplements",
    [bWords ["omega", "coq10", "coenzyme", "glucosamine"],
     bWords ["supplement", "dodatak", "ishrani"]]),
   ("painkillers",
    [bWords ["ibuprofen", "paracetamol", "aspirin", "diclofenac"],
     RE.cat [RE.bnd, RE.grp 1 (RE.alts
       [RE.lit "analgesic", RE.lit "analgetik",
        RE.cat [RE.lit "protiv", RE.plus1 RE.wsp, RE.lit "bola"]]), RE.bnd]]),
   ("antibiotics",
    [bWords ["amoxicillin", "penicillin", "erythromycin"],
     bWords ["antibiotic", "antibiotik"]])]

/-- Noise words to drop (`self.noise_words`). -/
def noise_words : List String :=
  ["za", "od", "do", "sa", "na", "u", "i", "a", "the", "of", "for", "with",
   "and", "plus", "extra", "special", "premium", "advanced", "new", "novo",
   "original"]

/-- Punctuation class of `_basic_clean`: `[,\.\(\)\[\]\/\\]`. -/
def punctCls (c : Char) : Bool :=
  c = ',' || c = '.' || c = '(' || c = ')' || c = '[' || c = ']' || c = '/' ||
    c = '\\'

/-- `PharmaPreprocessor._basic_clean`. -/
def basic_clean (text : List Char) : List Char :=
  let t := pyStrip (pyLower text)
  let t := t.filter (fun c => !(c = '®' || c = '™' || c = '©'))
  let t := reSub (RE.plus1 (RE.cls punctCls)) " " t
  let t := reSub (RE.plus1 RE.wsp) " " t
  let t := reSub (RE.cat [RE.bnd, RE.chr 'l', RE.bnd]) "1" t
  let t := reSub (RE.cat [RE.bnd, RE.chr 'o', RE.bnd]) "0" t
  pyStrip t

/-- `PharmaPreprocessor._standardize_brand`. -/
def standardize_brand (brand : List Char) : List Char :=
  pyStrip (brand_mappings.foldl
    (fun b om => reSub (RE.cat [RE.bnd, RE.lit om.1, RE.bnd]) om.2 b) brand)

/-- Lower-case letter class `[a-z]`. -/
def lowAlpha : RE := RE.cls (fun c => 'a' ≤ c && c ≤ 'z')

/-- Brand patterns of `_extract_brand`, in source order. -/
def brand_patterns : List RE :=
  [RE.cat [RE.bnd, RE.grp 1 (RE.cat
     [RE.lit "dr", RE.opt (RE.chr '.'), RE.wsps, RE.plus1 RE.wrd])],
   RE.cat [RE.bnd, RE.grp 1 (RE.cat
     [RE.lit "prof", RE.opt (RE.chr '.'), RE.wsps, RE.plus1 RE.wrd])],
   RE.cat [RE.bnd, RE.grp 1 (RE.cat
     [RE.plus1 RE.wrd, RE.wsps, RE.lit "pharm", RE.star RE.wrd])],
   RE.cat [RE.bnd, RE.grp 1 (RE.cat
     [RE.plus1 RE.wrd, RE.wsps, RE.lit "lab", RE.star RE.wrd])],
   RE.cat [RE.bos, RE.grp 1 (RE.cat
     [RE.plus1 lowAlpha, RE.plus1 RE.wsp, RE.plus1 lowAlpha]), RE.bnd]]

/-- `PharmaPreprocessor._extract_brand`. -/
def extract_brand (text : List Char) (brand_name : Option (List Char)) :
    List Char :=
  if (match brand_name with | some bn => !bn.isEmpty | none => false) then
    standardize_brand (pyLower (brand_name.getD []))
  else
    let rec go : List RE → List Char
      | [] => []
      | p :: rest =>
        match reSearch p text with
        | some m => standardize_brand (pyStrip ((getGrp 1 m.env).getD []))
        | none => go rest
    go brand_patterns

/-- Number with optional decimal point: `\d+(?:\.\d+)?`. -/
def numRE : RE :=
  RE.cat [RE.plus1 RE.dig, RE.opt (RE.cat [RE.chr '.', RE.plus1 RE.dig])]

/-- Strength patterns of `_extract_strength` with their group counts, in
source order. -/
def strength_patterns : List (RE × Nat) :=
  [(RE.cat [RE.grp 1 numRE, RE.wsps, RE.grp 2 (RE.alts (RE.words
      ["mg", "mcg", "µg", "iu", "g", "ml", "l", "%"]))], 2),
   (RE.cat [RE.grp 1 numRE, RE.wsps, RE.grp 2 (RE.alts (RE.words
      ["milligram", "miligram", "microgram", "mikrogram"]))], 2),
   (RE.cat [RE.grp 1 numRE, RE.wsps, RE.grp 2 (RE.alts (RE.words
      ["gram", "kilogram"]))], 2),
   (RE.cat [RE.grp 1 numRE, RE.wsps, RE.grp 2 (RE.alts (RE.words
      ["milliliter", "mililitr", "liter", "litr"]))], 2),
   (RE.cat [RE.grp 1 numRE, RE.wsps, RE.grp 2 (RE.alts (RE.words
      ["percent", "procenat"]))], 2),
   (RE.cat [RE.grp 1 (RE.plus1 RE.dig), RE.wsps, RE.grp 2 (RE.alts (RE.words
      ["k", "mil", "million", "billion"])), RE.wsps,
      RE.grp 3 (RE.alts (RE.words ["iu", "mg", "mcg"]))], 3)]

/-- Dictionary `get` on a string-keyed table (`d.get(k, default)`). -/
def tblGet (tbl : List (String × String)) (k : List Char) (dflt : List Char) :
    List Char :=
  match tbl.find? (fun e => e.1.data = k) with
  | some e => e.2.data
  | none => dflt

/-- Digits to a natural number (`int` on a digit string). -/
def digitsToNat (s : List Char) : Nat :=
  s.foldl (fun n c => n * 10 + (c.toNat - '0'.toNat)) 0

/-- Natural number to decimal digits (`str` on an int). -/
def natToChars (n : Nat) : List Char := (toString n).data

/-- Multiplier table of `_extract_strength`. -/
def multipliers : List (String × Nat) :=
  [("k", 1000), ("mil", 1000000), ("million", 1000000), ("billion", 1000000000)]

/-- `PharmaPreprocessor._extract_strength`. -/
def extract_strength (text : List Char) : List Char :=
  let rec go : List (RE × Nat) → List Char
    | [] => []
    | (p, ngroups) :: rest =>
      match reSearch p text with
      | some m =>
        let value := (getGrp 1 m.env).getD []
        let unit := pyLower ((getGrp 2 m.env).getD [])
        let normalized_unit := tblGet dosage_mappings unit unit
        if ngroups > 2 && (getGrp 3 m.env).isSome then
          let multiplier := pyLower ((getGrp 2 m.env).getD [])
          let base_unit := pyLower ((getGrp 3 m.env).getD [])
          match multipliers.find? (fun e => e.1.data = multiplier) with
          | some mult =>
            PharmaPreprocessor.natToChars (digitsToNat value * mult.2) ++ [' '] ++
              tblGet dosage_mappings base_unit base_unit
          | none => value ++ [' '] ++ normalized_unit
        else value ++ [' '] ++ normalized_unit
      | none => go rest
  go strength_patterns

/-- Form patterns of `_extract_form`, in source order. -/
def form_patterns : List RE :=
  [bWords ["tableta", "tablete", "tbl", "tab", "tabs"],
   bWords ["kapsula", "kapsule", "caps", "cap", "cps"],
   bWords ["sirup", "syrup", "syr"],
   bWords ["sprej", "spray"],
   bWords ["kapi", "drops", "drop"],
   bWords ["mast", "ointment", "oint"],
   bWords ["krema", "cream", "cr"],
   bWords ["gel"],
   bWords ["prah", "powder", "pwd"],
   bWords ["rastvor", "solution", "sol"],
   bWords ["suspenzija", "suspension", "susp"],
   bWords ["injekcija", "injection", "inj"],
   bWords ["kesica", "kesice", "sachet", "sachets"]]

/-- `PharmaPreprocessor._extract_form`. -/
def extract_form (text : List Char) : List Char :=
  let rec go : List RE → List Char
    | [] => []
    | p :: rest =>
      match reSearch p text with
      | some m =>
        let f := pyLower ((getGrp 1 m.env).getD [])
        tblGet form_mappings f f
      | none => go rest
  go form_patterns

/-- Size patterns of `_extract_size`, in source order. -/
def size_patterns : List RE :=
  [RE.cat [RE.bnd, RE.grp 1 (RE.cat [RE.chr 'a', RE.plus1 RE.dig]), RE.bnd],
   RE.cat [RE.bnd, RE.grp 1 (RE.plus1 RE.dig), RE.chr 'x', RE.bnd],
   RE.cat [RE.bnd, RE.grp 1 (RE.plus1 RE.dig), RE.wsps,
     RE.grp 2 (RE.alts (RE.words ["kom", "komada", "pieces", "pcs"])), RE.bnd],
   RE.cat [RE.bnd, RE.grp 1 (RE.plus1 RE.dig), RE.wsps, RE.lit "ml", RE.bnd],
   RE.cat [RE.bnd, RE.grp 1 (RE.plus1 RE.dig), RE.wsps, RE.chr 'g', RE.bnd,
     RE.nla (RE.cat [RE.wsps,
       RE.grp 2 (RE.alts [RE.lit "mg", RE.lit "mcg"])])]]

/-- `PharmaPreprocessor._extract_size` (returns `match.group(0).strip()`). -/
def extract_size (text : List Char) : List Char :=
  let rec go : List RE → List Char
    | [] => []
    | p :: rest =>
      match reSearch p text with
      | some m => pyStrip m.mat
      | none => go rest
  go size_patterns

/-- Variant patterns of `_extract_variant`, in source order. -/
def variant_patterns : List RE :=
  [bWords ["forte", "plus", "max", "ultra", "premium", "advanced", "complex",
     "complete"],
   bWords ["extra", "special", "imuno", "junior", "mini", "midi", "maxi"],
   bWords ["sensitive", "gentle", "soft", "comfort", "active", "protect"]]

/-- `PharmaPreprocessor._extract_variant`. -/
def extract_variant (text : List Char) : List Char :=
  let variants := variant_patterns.foldl
    (fun acc p => acc ++ reFindAllG1 p text) []
  if variants.isEmpty then []
  else joinWith [' '] (dedupKeepFirst (sortStrs variants))

/-- `PharmaPreprocessor._detect_category`. -/
def detect_category (text : List Char) : List Char :=
  let rec go : List (String × List RE) → List Char
    | [] => "other".data
    | (cat, ps) :: rest =>
      if ps.any (fun p => (reSearch p text).isSome) then cat.data else go rest
  go category_patterns

/-- Packaging patterns of `_extract_base_name`. -/
def packaging_patterns : List RE :=
  [RE.cat [RE.bnd, RE.grp 1 (RE.cat [RE.chr 'a', RE.plus1 RE.dig]), RE.bnd],
   RE.cat [RE.bnd, RE.grp 1 (RE.plus1 RE.dig), RE.chr 'x', RE.bnd],
   RE.cat [RE.bnd, RE.plus1 RE.dig, RE.wsps,
     RE.grp 1 (RE.alts (RE.words ["kom", "komada", "pack", "box", "pcs"])),
     RE.bnd]]

/-- `PharmaPreprocessor._extract_base_name`. -/
def extract_base_name (text brand strength form size variant : List Char) :
    List Char :=
  let removeComponent := fun (base component : List Char) =>
    if component.isEmpty then base
    else
      let base := reSub (RE.cat [RE.bnd, RE.litList component, RE.bnd]) "" base
      (splitWS component).foldl
        (fun b w =>
          if w.length > 2 then
            reSub (RE.cat [RE.bnd, RE.litList w, RE.bnd]) "" b
          else b) base
  let base := [brand, strength, form, size, variant].foldl removeComponent text
  let base := packaging_patterns.foldl (fun b p => reSub p "" b) base
  let meaningful := (splitWS base).filter
    (fun w => !(noise_words.any (fun n => n.data = w)) && w.length > 1)
  let base := joinWith [' '] meaningful
  pyStrip (reSub (RE.plus1 RE.wsp) " " base)

/-- `PharmaPreprocessor._apply_synonyms`. -/
def apply_synonyms (text : List Char) : List Char :=
  synonym_mappings.foldl
    (fun t cs => cs.2.foldl
      (fun t2 syn =>
        reSub (RE.cat [RE.bnd, RE.lit syn, RE.bnd]) cs.1 t2) t) text

/-- `PharmaPreprocessor._generate_normalized_name`. -/
def generate_normalized_name (base_name brand strength form variant :
    List Char) : List Char :=
  let parts : List (List Char) :=
    (if !brand.isEmpty then [pyTitle brand] else []) ++
    (if !base_name.isEmpty then [pyTitle base_name] else []) ++
    (if !variant.isEmpty then [pyTitle variant] else []) ++
    (if !strength.isEmpty then [strength] else []) ++
    (if !form.isEmpty && form ≠ "tableta".data && form ≠ "kapsula".data then
      [pyTitle form] else [])
  joinWith [' '] parts

/-- Token pattern `\b\w{2,}\b` of `_generate_search_tokens`. -/
def tokenRE : RE := RE.cat [RE.bnd, RE.wrd, RE.plus1 RE.wrd, RE.bnd]

/-- Add an element to a Python-set model (insertion-ordered list without
duplicates; only the underlying set matters since tokens are sorted at the
end). -/
def setAdd (l : List (List Char)) (x : List Char) : List (List Char) :=
  if l.contains x then l else l ++ [x]

/-- `PharmaPreprocessor._generate_search_tokens`. -/
def generate_search_tokens (original base_name brand strength form variant :
    List Char) : List (List Char) :=
  let tokens := (reFindAllG0 tokenRE (pyLower original)).foldl setAdd []
  let tokens := [base_name, brand, strength, form, variant].foldl
    (fun ts component =>
      if component.isEmpty then ts
      else (reFindAllG0 tokenRE (pyLower component)).foldl setAdd ts) tokens
  let token_list := tokens
  let tokens := token_list.foldl
    (fun ts token =>
      synonym_mappings.foldl
        (fun ts2 cs =>
          if cs.2.any (fun syn => syn.data = token) then setAdd ts2 cs.1.data
          else if cs.1.data = token then (cs.2.map String.data).foldl setAdd ts2
          else ts2) ts) tokens
  let tokens := tokens.filter
    (fun t => !(noise_words.any (fun n => n.data = t)) && t.length > 1)
  sortStrs tokens

/-- `PharmaPreprocessor._generate_grouping_key`. -/
def generate_grouping_key (base_name brand strength form category :
    List Char) : List Char :=
  let key_parts : List (List Char) :=
    (if !base_name.isEmpty then [pyLower base_name] else []) ++
    (if !brand.isEmpty then [pyLower brand] else []) ++
    (if !strength.isEmpty then [pyLower strength] else []) ++
    (if !category.isEmpty then [category] else []) ++
    (if !form.isEmpty && form ≠ "tableta".data && form ≠ "kapsula".data &&
        form ≠ "tablete".data && form ≠ "kapsule".data then
      [pyLower form] else [])
  joinWith ['|'] key_parts

/-- `PharmaPreprocessor._empty_identity`. -/
def empty_identity : ProductIdentity :=
  ⟨[], [], [], [], [], [], [], [], [], []⟩

/-- `PharmaPreprocessor.preprocess_product`. -/
def preprocess_product (title : List Char)
    (brand_name : Option (List Char)) : ProductIdentity :=
  if title.isEmpty then empty_identity
  else
    let cleaned_title := basic_clean title
    let brand := extract_brand cleaned_title brand_name
    let strength := extract_strength cleaned_title
    let form := extract_form cleaned_title
    let size := extract_size cleaned_title
    let variant := extract_variant cleaned_title
    let category := detect_category cleaned_title
    let base_name :=
      extract_base_name cleaned_title brand strength form size variant
    let base_name := apply_synonyms base_name
    let normalized_name :=
      generate_normalized_name base_name brand strength form variant
    let search_tokens :=
      generate_search_tokens cleaned_title base_name brand strength form
        variant
    let grouping_key :=
      generate_grouping_key base_name brand strength form category
    ⟨base_name, brand, strength, form, size, variant, category,
      normalized_name, search_tokens, grouping_key⟩

/-- `PharmaPreprocessor.should_group_by_keys`. -/
def should_group_by_keys (key1 key2 : List Char)
    (similarity_threshold : ℚ) : Bool :=
  if key1.isEmpty || key2.isEmpty then false
  else if key1 = key2 then true
  else
    let parts1 := splitOnChar '|' key1
    let parts2 := splitOnChar '|' key2
    if parts1.length ≠ parts2.length then false
    else
      let similarities := (parts1.zip parts2).map
        (fun pp => if pp.1 = pp.2 then (1 : ℚ) else ratioSim pp.1 pp.2 / 100)
      decide (similarities.sum / (similarities.length : ℚ) ≥
        similarity_threshold)

end PharmaPreprocessor

/-! ### Embedding of `backend/src/search_engine.py` (`PharmaSearchEngine`)

Prices and clock readings are rationals.  The SQL database behind
`fast_product_search` and the product table is a `Snapshot` parameter (a fixed
index snapshot), Python's per-process salted string `hash` is a `pyHash`
parameter, `hashlib.md5` is an `md5` parameter, and the optional ML
preprocessor global (`get_ml_preprocessor()`, `None` unless the separate
`setup_ml` script initialized it) is an `Option MLP` parameter. -/

/-- Parse a Python `float(...)` of the digit / decimal-point strings produced
by the extraction patterns; `none` models `ValueError`. -/
def parsePyFloat (s : List Char) : Option ℚ :=
  let ipart := s.takeWhile Char.isDigit
  let rest := s.dropWhile Char.isDigit
  if ipart.isEmpty then none
  else
    match rest with
    | [] => some (PharmaPreprocessor.digitsToNat ipart)
    | '.' :: frac =>
      if !frac.isEmpty && frac.all Char.isDigit then
        some ((PharmaPreprocessor.digitsToNat ipart : ℚ) +
          (PharmaPreprocessor.digitsToNat frac : ℚ) / ((10 : ℚ) ^ frac.length))
      else none
    | _ => none

namespace PharmaSearchEngine

/-- A row of the `Product` join fetched by `_create_dynamic_groups`
(`brand_name` is `None` when the product has no brand). -/
structure DBProduct where
  id : List Char
  title : List Char
  price : ℚ
  vendorId : List Char
  vendor_name : List Char
  brand_name : Option (List Char)
  brandId : Option (List Char)
  link : List Char
  thumbnail : List Char
deriving DecidableEq, Repr

/-- An entry of a result group's `products` list. -/
structure OutProduct where
  id : List Char
  title : List Char
  price : ℚ
  vendor_id : List Char
  vendor_name : List Char
  link : List Char
  thumbnail : List Char
  brand_name : Option (List Char)
deriving DecidableEq, Repr

/-- A result group as built by `_create_group_from_products`. -/
structure PGroup where
  id : List Char
  normalized_name : List Char
  products : List OutProduct
  price_min : ℚ
  price_max : ℚ
  vendor_count : Nat
  product_count : Nat
  dosage_value : Option ℚ
  dosage_unit : Option (List Char)
  search_rank : Nat
deriving DecidableEq, Repr

/-- The optional ML preprocessor collaborator (module
`ml_preprocessor.py`; a black box from the search engine's point of view). -/
structure MLP where
  get_ml_clusters : List (List Char) → List (Nat × List (List Char))
  should_group_products_ml : List Char → List Char → ℚ → Bool
  compute_similarity : List Char → List Char → ℚ

/-- Python `min(xs)` for a non-empty rational list. -/
def pyMin (x : ℚ) (xs : List ℚ) : ℚ := xs.foldl min x

/-- Python `max(xs)` for a non-empty rational list. -/
def pyMax (x : ℚ) (xs : List ℚ) : ℚ := xs.foldl max x

/-- Last index of `pid` in `ids` (a Python dict comprehension
`{pid: idx for idx, pid in enumerate(ids)}` keeps the last index). -/
def lastIndexOf (ids : List (List Char)) (pid : List Char) : Option Nat :=
  let rec go : List (List Char) → Nat → Option Nat → Option Nat
    | [], _, acc => acc
    | x :: rest, i, acc => go rest (i + 1) (if x = pid then some i else acc)
  go ids 0 none

/-- First maximal-count element, in first-occurrence order (Python
`max(counts.items(), key=lambda x: x[1])[0]` over an insertion-ordered
`defaultdict`). -/
def mostCommon (names : List (List Char)) : List Char :=
  let keys := dedupKeepFirst names
  let counted := keys.map (fun k => (k, (names.filter (fun n => n = k)).length))
  match counted with
  | [] => []
  | c0 :: rest =>
    (rest.foldl (fun best c => if c.2 > best.2 then c else best) c0).1

/-- `PharmaSearchEngine._generate_preprocessed_group_name`. -/
def generate_preprocessed_group_name (identities : List ProductIdentity) :
    List Char :=
  match identities with
  | [] => "Unknown Product".data
  | [identity] =>
    if !identity.normalized_name.isEmpty then identity.normalized_name
    else if !(pyTitle identity.base_name).isEmpty then
      pyTitle identity.base_name
    else "Unknown Product".data
  | _ =>
    let normalized_names :=
      (identities.filter (fun i => !i.normalized_name.isEmpty)).map
        (·.normalized_name)
    if !normalized_names.isEmpty then mostCommon normalized_names
    else
      let base_names :=
        (identities.filter (fun i => !i.base_name.isEmpty)).map (·.base_name)
      if !base_names.isEmpty then
        let most_common_base := mostCommon base_names
        let strengths :=
          (identities.filter (fun i => !i.strength.isEmpty)).map (·.strength)
        if !strengths.isEmpty then
          pyTitle most_common_base ++ [' '] ++ mostCommon strengths
        else pyTitle most_common_base
      else "Unknown Product".data

/-- `PharmaSearchEngine._create_group_from_products` (`group_products` must be
non-empty in the callers; the empty case returns the empty group `{}`,
embedded as a default group). -/
def create_group_from_products (group_products : List DBProduct)
    (product_ids : List (List Char)) (group_id : List Char) : PGroup :=
  let group_products :=
    stableSortBy (fun a b => decide (a.price < b.price)) group_products
  let group_name :=
    match group_products with
    | [] => []
    | [product] =>
      let identity := PharmaPreprocessor.preprocess_product product.title
        product.brand_name
      if !identity.normalized_name.isEmpty then identity.normalized_name
      else product.title
    | _ =>
      let identities := group_products.map (fun p =>
        PharmaPreprocessor.preprocess_product p.title p.brand_name)
      generate_preprocessed_group_name identities
  let dosage : Option (ℚ × List Char) :=
    let rec go : List DBProduct → Option (ℚ × List Char)
      | [] => none
      | p :: rest =>
        let identity := PharmaPreprocessor.preprocess_product p.title
          p.brand_name
        if !identity.strength.isEmpty then
          match splitWS identity.strength with
          | v :: u :: _ =>
            match parsePyFloat v with
            | some q => some (q, u)
            | none => go rest
          | _ => go rest
        else go rest
    go group_products
  let prices := (group_products.filter (fun p => p.price ≠ 0)).map (·.price)
  let search_rank :=
    match group_products with
    | [] => product_ids.length
    | p :: _ => (lastIndexOf product_ids p.id).getD product_ids.length
  { id := group_id
    normalized_name := group_name
    products := group_products.map (fun p =>
      ⟨p.id, p.title, p.price, p.vendorId, p.vendor_name, p.link, p.thumbnail,
        p.brand_name⟩)
    price_min := match prices with | [] => 0 | x :: xs => pyMin x xs
    price_max := match prices with | [] => 0 | x :: xs => pyMax x xs
    vendor_count := (dedupKeepFirst (group_products.map (·.vendorId))).length
    product_count := group_products.length
    dosage_value := dosage.map (·.1)
    dosage_unit := dosage.map (·.2)
    search_rank := search_rank }

/-- Item of the hybrid grouping loop: a product with its extracted identity
and grouping key. -/
structure HItem where
  product : DBProduct
  identity : ProductIdentity
  grouping_key : List Char
deriving DecidableEq, Repr

/-- Insertion-ordered dictionary `grouping key ↦ items` (Python
`defaultdict(list)`). -/
abbrev GroupsDict := List (List Char × List HItem)

/-- Append an item at a key, creating the key at the end when absent. -/
def dictAppend (dict : GroupsDict) (key : List Char) (item : HItem) :
    GroupsDict :=
  let rec go : GroupsDict → GroupsDict
    | [] => [(key, [item])]
    | (k, items) :: rest =>
      if k = key then (k, items ++ [item]) :: rest else (k, items) :: go rest
  go dict

/-- First existing group key that the scan of `_group_products_hybrid` accepts
for `item` (rule-based key similarity, or ML similarity when available). -/
def findTargetKey (mlp : Option MLP) (dict : GroupsDict) (item : HItem) :
    Option (List Char) :=
  let rec go : GroupsDict → Option (List Char)
    | [] => none
    | (existing_key, items) :: rest =>
      let rule_based_similar := PharmaPreprocessor.should_group_by_keys
        item.grouping_key existing_key (75 / 100)
      let ml_similar :=
        match mlp with
        | some ml =>
          match items with
          | [] => false
          | first :: _ =>
            if !first.product.id.isEmpty && !item.product.id.isEmpty then
              ml.should_group_products_ml item.product.id first.product.id
                (80 / 100)
            else false
        | none => false
      if rule_based_similar || ml_similar then some existing_key else go rest
  go dict

/-- Best existing group for an ungrouped item (the ML-then-text-similarity
fallback loop of `_group_products_hybrid`). -/
def bestGroupKey (mlp : Option MLP) (dict : GroupsDict) (item : HItem) :
    Option (List Char) :=
  let step := fun (best : Option (List Char) × ℚ)
      (entry : List Char × List HItem) =>
    match entry.2 with
    | [] => best
    | first :: _ =>
      let mlTaken :=
        match mlp with
        | some ml =>
          if !item.product.id.isEmpty && !first.product.id.isEmpty then
            let ml_similarity := ml.compute_similarity item.product.id
              first.product.id
            if ml_similarity > best.2 && ml_similarity > 7 / 10 then
              some (some entry.1, ml_similarity)
            else none
          else none
        | none => none
      match mlTaken with
      | some b => b
      | none =>
        let text_similarity :=
          (max (ratioSim (pyLower item.product.title)
              (pyLower first.product.title))
            (max (tokenSortSim (pyLower item.product.title)
              (pyLower first.product.title))
              (tokenSetSim (pyLower item.product.title)
                (pyLower first.product.title)))) / 100
        if text_similarity > best.2 && text_similarity > 7 / 10 then
          (some entry.1, text_similarity)
        else best
  (dict.foldl step (none, 0)).1

/-- Python tuple comparison `(search_rank, -vendor_count)` used as the group
sort key of `_group_products_hybrid` and `_create_groups_from_ml_clusters`
(`final_groups.sort(key=lambda x: (x.get("search_rank", 999),
-x["vendor_count"]))`, lexicographic, stable). -/
def groupLt (g1 g2 : PGroup) : Bool :=
  decide ((g1.search_rank : ℤ) < (g2.search_rank : ℤ)) ||
    (decide ((g1.search_rank : ℤ) = (g2.search_rank : ℤ)) &&
      decide ((-(g1.vendor_count : ℤ)) < (-(g2.vendor_count : ℤ))))

/-- `PharmaSearchEngine._group_products_hybrid`.  `pyHash` is the process's
salted string hash used in the group id `f"hybrid_{abs(hash(group_key))}"`. -/
def group_products_hybrid (pyHash : List Char → Int) (mlp : Option MLP)
    (products : List DBProduct) (product_ids : List (List Char)) :
    List PGroup :=
  let product_identities : List HItem := products.map (fun p =>
    let identity := PharmaPreprocessor.preprocess_product p.title p.brand_name
    ⟨p, identity, identity.grouping_key⟩)
  let init : GroupsDict × List HItem := ([], [])
  let scanned := product_identities.foldl
    (fun st item =>
      if item.grouping_key.isEmpty then (st.1, st.2 ++ [item])
      else
        match findTargetKey mlp st.1 item with
        | some key => (dictAppend st.1 key item, st.2)
        | none => (dictAppend st.1 item.grouping_key item, st.2))
    init
  let groups_dict := scanned.2.foldl
    (fun dict item =>
      match bestGroupKey mlp dict item with
      | some best_key => dictAppend dict best_key item
      | none =>
        let key := if !item.grouping_key.isEmpty then item.grouping_key
          else "single_".data ++
            (if !item.product.id.isEmpty then item.product.id
              else "unknown".data)
        dictAppend dict key item)
    scanned.1
  let final_groups := groups_dict.foldl
    (fun acc entry =>
      if entry.2.isEmpty then acc
      else acc ++ [create_group_from_products (entry.2.map (·.product))
        product_ids
        ("hybrid_".data ++ PharmaPreprocessor.natToChars (Int.natAbs (pyHash entry.1)))])
    []
  stableSortBy groupLt final_groups

/-- `PharmaSearchEngine._create_groups_from_ml_clusters` (reachable only when
an ML preprocessor is installed). -/
def create_groups_from_ml_clusters (products : List DBProduct)
    (ml_clusters : List (Nat × List (List Char)))
    (product_ids : List (List Char)) : List PGroup :=
  let product_lookup := fun pid => (products.reverse.find? (fun p => p.id = pid))
  let rec removeFirst : List DBProduct → DBProduct → List DBProduct
    | [], _ => []
    | p :: rest, q => if p = q then rest else p :: removeFirst rest q
  let step := fun (st : List PGroup × List DBProduct)
      (cluster : Nat × List (List Char)) =>
    let collected := cluster.2.foldl
      (fun (acc : List DBProduct × List DBProduct) pid =>
        match product_lookup pid with
        | some product =>
          (acc.1 ++ [product],
            if acc.2.contains product then removeFirst acc.2 product else acc.2)
        | none => acc)
      ([], st.2)
    if collected.1.isEmpty then (st.1, collected.2)
    else
      (st.1 ++ [create_group_from_products collected.1 product_ids
        ("ml_cluster_".data ++ PharmaPreprocessor.natToChars cluster.1)], collected.2)
  let run := ml_clusters.foldl step ([], products)
  let final_groups := run.1 ++ run.2.map (fun product =>
    create_group_from_products [product] product_ids
      ("single_".data ++
        (if !product.id.isEmpty then product.id else "unknown".data)))
  stableSortBy groupLt final_groups

/-- `PharmaSearchEngine._group_products_with_preprocessor` /
`_group_products_dynamically`: try ML clustering when an ML preprocessor is
installed, otherwise (and on empty cluster output) fall back to the
rule-based hybrid grouping. -/
def group_products_dynamically (pyHash : List Char → Int) (mlp : Option MLP)
    (products : List DBProduct) (product_ids : List (List Char)) :
    List PGroup :=
  if products.isEmpty then []
  else
    match mlp with
    | some ml =>
      let ml_clusters := ml.get_ml_clusters product_ids
      if !ml_clusters.isEmpty then
        create_groups_from_ml_clusters products ml_clusters product_ids
      else group_products_hybrid pyHash mlp products product_ids
    | none => group_products_hybrid pyHash mlp products product_ids

end PharmaSearchEngine

namespace PharmaSearchEngine

/-- Search filters (`{min_price?, max_price?, vendor_ids?, brand_ids?}`;
`none` models an absent key). -/
structure Filters where
  min_price : Option ℚ
  max_price : Option ℚ
  vendor_ids : Option (List (List Char))
  brand_ids : Option (List (List Char))
deriving DecidableEq, Repr

/-- A search result page.  The grouped path carries groups plus pagination
data (and `search_type_used` where the source sets it); the non-grouped path
carries plain products. -/
inductive SearchResult where
  | groupsPage (groups : List PGroup) (total : Nat) (off : Nat) (lim : Nat)
      (search_type_used : Option (List Char))
  | productsPage (products : List DBProduct) (total : Nat) (off : Nat)
      (lim : Nat)
deriving DecidableEq, Repr

/-- The fixed index snapshot: the SQL database contents and functions the
engine reads.  `fastProductSearch` is the stored DB function
`fast_product_search` (ids in descending relevance order), `table` the
`Product` join rows, `fallbackShort` the inline trigram-fallback SQL of
`_fallback_short_query_search`, `searchProducts` the non-grouped product
SQL of `_search_products` — all evaluated by the (external) database engine
over the fixed snapshot. -/
structure Snapshot where
  fastProductSearch : List Char → Nat → List (List Char)
  table : List DBProduct
  fallbackShort : List Char → List (List Char)
  searchProducts : List Char → Option Filters → Nat → Nat →
    (List DBProduct × Nat)

/-- Per-process runtime environment: `hashlib.md5` digests, Python's salted
string `hash`, and the optional ML preprocessor global. -/
structure RunEnv where
  md5 : List Char → List Char
  pyHash : List Char → Int
  mlp : Option MLP

/-- JSON string literal (the queries and filter ids considered contain no
characters needing escapes). -/
def jsonStr (s : List Char) : List Char := '"' :: (s ++ ['"'])

/-- JSON rendering of a rational filter bound (a deterministic injective
rendering; only equality of encodings matters to the claims). -/
def jsonNum (q : ℚ) : List Char := (toString q).data

/-- JSON array of strings. -/
def jsonArr (xs : List (List Char)) : List Char :=
  '[' :: (joinWith [',', ' '] (xs.map jsonStr) ++ [']'])

/-- JSON object from already-rendered `"key": value` members. -/
def jsonObj (members : List (List Char)) : List Char :=
  '\x7b' :: (joinWith [',', ' '] members ++ ['\x7d'])

/-- One `"key": value` member. -/
def jsonMember (key : String) (v : List Char) : List Char :=
  jsonStr key.data ++ [':', ' '] ++ v

/-- `json.dumps(filters or {}, sort_keys=True)`: keys in alphabetical order
(`brand_ids`, `max_price`, `min_price`, `vendor_ids`); an absent key is not
rendered. -/
def jsonFilters : Option Filters → List Char
  | none => jsonObj []
  | some f => jsonObj
      ((match f.brand_ids with
        | some ids => [jsonMember "brand_ids" (jsonArr ids)] | none => []) ++
       (match f.max_price with
        | some q => [jsonMember "max_price" (jsonNum q)] | none => []) ++
       (match f.min_price with
        | some q => [jsonMember "min_price" (jsonNum q)] | none => []) ++
       (match f.vendor_ids with
        | some ids => [jsonMember "vendor_ids" (jsonArr ids)] | none => []))

/-- `PharmaSearchEngine._get_cache_key`: the md5 digest of the sorted-keys
JSON dump of `{query.lower().strip(), filters or {}, limit, offset,
search_type}`. -/
def get_cache_key (md5 : List Char → List Char) (query : List Char)
    (filters : Option Filters) (limit offset : Nat)
    (search_type : List Char) : List Char :=
  md5 (jsonObj
    [jsonMember "filters" (jsonFilters filters),
     jsonMember "limit" (PharmaPreprocessor.natToChars limit),
     jsonMember "offset" (PharmaPreprocessor.natToChars offset),
     jsonMember "query" (jsonStr (pyStrip (pyLower query))),
     jsonMember "search_type" (jsonStr search_type)])

/-- One cached page (`{"result": ..., "timestamp": time.time()}`). -/
structure CacheEntry where
  result : SearchResult
  timestamp : ℚ
deriving DecidableEq

/-- The in-memory result cache `self._search_cache`, an insertion-ordered
dictionary. -/
abbrev Cache := List (List Char × CacheEntry)

/-- Python dict lookup. -/
def cacheGet (cache : Cache) (key : List Char) : Option CacheEntry :=
  (cache.find? (fun e => e.1 = key)).map (·.2)

/-- Python `del cache[key]`. -/
def cacheDel (cache : Cache) (key : List Char) : Cache :=
  let rec go : Cache → Cache
    | [] => []
    | e :: rest => if e.1 = key then rest else e :: go rest
  go cache

/-- Python `cache[key] = entry` (replace in place, else append). -/
def cacheSet (cache : Cache) (key : List Char) (entry : CacheEntry) : Cache :=
  let rec go : Cache → Cache
    | [] => [(key, entry)]
    | e :: rest => if e.1 = key then (key, entry) :: rest else e :: go rest
  go cache

/-- `PharmaSearchEngine._is_cache_valid` (TTL `max_age = 300` seconds). -/
def is_cache_valid (entry : CacheEntry) (now : ℚ) : Bool :=
  decide (now - entry.timestamp < 300)

/-- `PharmaSearchEngine._get_exact_matches`. -/
def get_exact_matches (snap : Snapshot) (query : List Char) (limit : Nat) :
    List (List Char) :=
  let query_len := (pyStrip query).length
  let search_limit := min (limit * 5) 300
  let query_identity := PharmaPreprocessor.preprocess_product query none
  let enhanced_tokens := query_identity.search_tokens
  let rows :=
    if query_len ≤ 3 then
      let rows0 := snap.fastProductSearch query search_limit
      if !enhanced_tokens.isEmpty &&
          enhanced_tokens.any (fun t => !listContains t (pyLower query)) then
        (enhanced_tokens.take 3).foldl
          (fun acc token =>
            if token ≠ pyLower query then
              acc ++ snap.fastProductSearch token (search_limit / 3)
            else acc)
          rows0
      else rows0
    else snap.fastProductSearch query search_limit
  dedupKeepFirst rows

/-- The SQL row filter of `_create_dynamic_groups` (`WHERE p.id = ANY($1)
AND price/vendor/brand filters`). -/
def rowMatches (product_ids : List (List Char)) (filters : Option Filters)
    (p : DBProduct) : Bool :=
  product_ids.contains p.id &&
  (match filters.bind (·.min_price) with
   | some q => decide (p.price ≥ q) | none => true) &&
  (match filters.bind (·.max_price) with
   | some q => decide (p.price ≤ q) | none => true) &&
  (match filters.bind (·.vendor_ids) with
   | some ids => ids.contains p.vendorId | none => true) &&
  (match filters.bind (·.brand_ids) with
   | some ids => match p.brandId with
     | some b => ids.contains b | none => false
   | none => true)

/-- `PharmaSearchEngine._create_dynamic_groups`: fetch the matching product
rows ordered by price, group them dynamically, paginate the groups. -/
def create_dynamic_groups (env : RunEnv) (snap : Snapshot)
    (product_ids : List (List Char)) (_query : List Char)
    (filters : Option Filters) (limit offset : Nat) : SearchResult :=
  let products := stableSortBy (fun a b => decide (a.price < b.price))
    (snap.table.filter (rowMatches product_ids filters))
  if products.isEmpty then .groupsPage [] 0 offset limit none
  else
    let groups := group_products_dynamically env.pyHash env.mlp products
      product_ids
    let total_groups := groups.length
    let paginated_groups := (groups.drop offset).take limit
    .groupsPage paginated_groups total_groups offset limit
      (some "dynamic".data)

/-- `PharmaSearchEngine._fallback_short_query_search`. -/
def fallback_short_query_search (env : RunEnv) (snap : Snapshot)
    (query : List Char) (filters : Option Filters) (limit offset : Nat) :
    SearchResult :=
  let product_ids := snap.fallbackShort query
  if product_ids.isEmpty then .groupsPage [] 0 offset limit none
  else create_dynamic_groups env snap product_ids query filters limit offset

/-- `PharmaSearchEngine._db_search_groups_enhanced`. -/
def db_search_groups_enhanced (env : RunEnv) (snap : Snapshot)
    (query : List Char) (filters : Option Filters) (limit offset : Nat) :
    SearchResult :=
  let query_lower := pyStrip (pyLower query)
  let query_len := query_lower.length
  let exact_matches := get_exact_matches snap query_lower limit
  if exact_matches.isEmpty then
    if query_len ≤ 3 then
      fallback_short_query_search env snap query_lower filters limit offset
    else .groupsPage [] 0 offset limit none
  else create_dynamic_groups env snap exact_matches query_lower filters limit
    offset

/-- `PharmaSearchEngine._search_products` (non-grouped; the inline SQL is
evaluated by the database, i.e. the snapshot). -/
def search_products (snap : Snapshot) (query : List Char)
    (filters : Option Filters) (limit offset : Nat) : SearchResult :=
  let r := snap.searchProducts (pyLower query) filters limit offset
  .productsPage r.1 r.2 offset limit

/-- `PharmaSearchEngine.search`: cache lookup with lazy TTL check, search,
cache store, and size-bound trimming.  Returns the result page and the new
cache state. -/
def search (env : RunEnv) (snap : Snapshot) (cache : Cache) (now : ℚ)
    (query : List Char) (filters : Option Filters) (group_results : Bool)
    (limit offset : Nat) (force_db_search : Bool) :
    SearchResult × Cache :=
  let search_type := if force_db_search then "db".data else "hybrid".data
  let cache_key := get_cache_key env.md5 query filters limit offset search_type
  let afterLookup : Option SearchResult × Cache :=
    match cacheGet cache cache_key with
    | some entry =>
      if is_cache_valid entry now then (some entry.result, cache)
      else (none, cacheDel cache cache_key)
    | none => (none, cache)
  match afterLookup.1 with
  | some result => (result, afterLookup.2)
  | none =>
    let result :=
      if group_results then
        db_search_groups_enhanced env snap query filters limit offset
      else search_products snap query filters limit offset
    let cache2 := cacheSet afterLookup.2 cache_key ⟨result, now⟩
    let cache3 :=
      if cache2.length > 1000 then cache2.drop (cache2.length - 500)
      else cache2
    (result, cache3)

end PharmaSearchEngine

/-! ### Embedding of `backend/src/similarity_matcher.py` (`SimilarityMatcher`)

The sentence encoder plus FAISS index pair is an external collaborator; it is
embedded as an optional `SemIndex` whose `searchKNN` returns the
`(distance, index)` rows that `self.index.search(encode(query), k)` would
return.  `rapidfuzz.process.extract` returns the top-`limit` choices by
scorer value in descending order. -/

namespace SimilarityMatcher

/-- The optional semantic index (`self.encoder` + `self.index`). -/
structure SemIndex where
  searchKNN : List Char → Nat → List (ℚ × Int)

/-- Matcher state (`self.product_names`, `self.product_ids`,
`self.index`). -/
structure Matcher where
  product_names : List (List Char)
  product_ids : List (List Char)
  index : Option SemIndex

/-- One scored hit `(product_id, score, name)`. -/
structure Hit where
  pid : List Char
  score : ℚ
  name : List Char
deriving DecidableEq, Repr

/-- `rapidfuzz.process.extract(query, choices, scorer=..., limit=...)`:
every choice scored, sorted by score descending (stable), top `limit`. -/
def processExtract (scorer : List Char → List Char → ℚ) (query : List Char)
    (choices : List (List Char)) (lim : Nat) : List (List Char × ℚ × Nat) :=
  (stableSortBy (fun a b => decide (b.2.1 < a.2.1))
    (choices.enum.map (fun iname => (iname.2, scorer query iname.2, iname.1)))
  ).take lim

/-- The exact/whole-word tier of `find_similar_products` (the loop over
`self.product_names` collecting word-boundary matches). -/
def exact_word_matches (m : Matcher) (query_lower : List Char)
    (query_len : Nat) : List Hit :=
  m.product_names.enum.foldl
    (fun acc iname =>
      let idx := iname.1
      let name := iname.2
      let name_lower := pyLower name
      let pid := m.product_ids.getD idx []
      let acc :=
        if query_len ≤ 3 then
          let words := splitWS name_lower
          if words.any (fun w => query_lower.isPrefixOf w) then
            acc ++ [⟨pid, 9 / 10, name⟩]
          else if query_lower.isPrefixOf name_lower then
            acc ++ [⟨pid, 95 / 100, name⟩]
          else acc
        else acc
      let words := splitWS name_lower
      if words.contains query_lower then acc ++ [⟨pid, 1, name⟩]
      else if listContains ([' '] ++ query_lower ++ [' '])
          ([' '] ++ name_lower ++ [' ']) ||
          query_lower.isPrefixOf name_lower ||
          ([' '] ++ query_lower).isSuffixOf name_lower then
        acc ++ [⟨pid, 95 / 100, name⟩]
      else acc)
    []

/-- `SimilarityMatcher._fuzzy_search`: three rapidfuzz strategies with
query-length-aware thresholds and multipliers. -/
def fuzzy_search (m : Matcher) (query : List Char) (k : Nat)
    (query_len : Nat) : List Hit :=
  let thrMult : ℚ × ℚ := if query_len ≤ 3 then (60, 12 / 10) else (70, 1)
  let min_score_threshold := thrMult.1
  let score_multiplier := thrMult.2
  let take1 := fun (results : List (List Char × ℚ × Nat)) (penalty : ℚ) =>
    results.foldl
      (fun acc r =>
        if r.2.1 ≥ min_score_threshold then
          let adjusted := min 1 (r.2.1 / 100 * penalty * score_multiplier)
          acc ++ [(⟨m.product_ids.getD r.2.2 [], adjusted, r.1⟩ : Hit)]
        else acc)
      []
  take1 (processExtract tokenSortSim query m.product_names (k * 2)) 1 ++
    take1 (processExtract alignSim query m.product_names (k * 2)) (9 / 10) ++
    take1 (processExtract tokenSetSim query m.product_names k) 1

/-- `SimilarityMatcher._semantic_search`: empty when no index is loaded,
otherwise k-nearest-neighbour distances converted to similarities with an
adaptive similarity floor. -/
def semantic_search (m : Matcher) (query : List Char) (k : Nat)
    (query_len : Nat) : List Hit :=
  match m.index with
  | none => []
  | some ix =>
    let search_k := if query_len ≤ 4 then k * 3 else k * 2
    let min_similarity : ℚ :=
      if query_len ≤ 3 then 25 / 100
      else if query_len ≤ 4 then 35 / 100
      else 4 / 10
    (ix.searchKNN query search_k).foldl
      (fun acc di =>
        match di.2.toNat', decide (di.2 ≥ 0) with
        | some idx, true =>
          if idx < m.product_ids.length then
            let similarity := max 0 (1 - di.1 / 2)
            if similarity > min_similarity then
              acc ++ [(⟨m.product_ids.getD idx [], similarity,
                m.product_names.getD idx []⟩ : Hit)]
            else acc
          else acc
        | _, _ => acc)
      []

/-- Update of the `best_scores` / `product_names` dictionaries of
`_combine_and_deduplicate_results` (an insertion-ordered dictionary mapping a
product id to its best score and that score's name). -/
def bestUpdate (best : List (List Char × ℚ × List Char)) (h : Hit) :
    List (List Char × ℚ × List Char) :=
  let rec go : List (List Char × ℚ × List Char) →
      Option (List (List Char × ℚ × List Char))
    | [] => none
    | e :: rest =>
      if e.1 = h.pid then
        if h.score > e.2.1 then some ((h.pid, h.score, h.name) :: rest)
        else some (e :: rest)
      else (go rest).map (fun r => e :: r)
  match go best with
  | some updated => updated
  | none => best ++ [(h.pid, h.score, h.name)]

/-- `SimilarityMatcher._combine_and_deduplicate_results`: per product id keep
the maximum score, drop entries below the threshold, sort by score
descending. -/
def combine_and_deduplicate_results (all_results : List Hit) (threshold : ℚ) :
    List Hit :=
  let best_scores := all_results.foldl bestUpdate []
  let combined := (best_scores.filter (fun e => decide (e.2.1 ≥ threshold))).map
    (fun e => (⟨e.1, e.2.1, e.2.2⟩ : Hit))
  stableSortBy (fun a b => decide (b.score < a.score)) combined

/-- `SimilarityMatcher.find_similar_products`: the exact, fuzzy and semantic
tiers combined under a query-length-adaptive threshold, top-k. -/
def find_similar_products (m : Matcher) (query : List Char) (k : Nat)
    (threshold : ℚ) : List Hit :=
  let query_lower := pyStrip (pyLower query)
  let query_len := query_lower.length
  let effective_threshold : ℚ :=
    if query_len ≤ 2 then max (2 / 10) (threshold * (3 / 10))
    else if query_len ≤ 4 then max (4 / 10) (threshold * (6 / 10))
    else threshold
  let results := exact_word_matches m query_lower query_len
  let fuzzy_results := fuzzy_search m query k query_len
  let semantic_results := semantic_search m query k query_len
  (combine_and_deduplicate_results
    (results ++ fuzzy_results ++ semantic_results) effective_threshold).take k

end SimilarityMatcher

/-! ### Embedding of `backend/src/search_engine_duckdb.py`
(`DuckDBPharmaSearchEngine`) — the grouping and price-comparison pieces. -/

namespace DuckDBEngine

/-- A product row returned by the DuckDB full-text query (nullable columns are
options). -/
structure Row where
  id : List Char
  title : List Char
  normalizedName : Option (List Char)
  price : Option ℚ
  vendorId : Option (List Char)
  dosageValue : Option ℚ
  dosageUnit : Option (List Char)
deriving DecidableEq, Repr

/-- The `price_analysis` sub-object added to multi-product groups. -/
structure PriceAnalysis where
  savings_potential : ℚ
  price_variation : ℚ
  below_avg_count : Nat
  above_avg_count : Nat
  has_multiple_vendors : Bool
deriving DecidableEq, Repr

/-- A dynamic group built by `_create_dynamic_groups`. -/
structure DGroup where
  id : List Char
  normalized_name : List Char
  products : List Row
  price_min : ℚ
  price_max : ℚ
  price_avg : ℚ
  price_range : ℚ
  vendor_count : Nat
  product_count : Nat
  dosage_value : Option ℚ
  dosage_unit : Option (List Char)
  price_analysis : Option PriceAnalysis
deriving DecidableEq, Repr

/-- Insertion-ordered `defaultdict(list)` append. -/
def odictAppend (dict : List (List Char × List Row)) (key : List Char)
    (v : Row) : List (List Char × List Row) :=
  let rec go : List (List Char × List Row) → List (List Char × List Row)
    | [] => [(key, [v])]
    | e :: rest =>
      if e.1 = key then (e.1, e.2 ++ [v]) :: rest else e :: go rest
  go dict

/-- Group-relevance key of `_create_dynamic_groups` (query containment in the
group name, plus a multi-vendor boost). -/
def group_relevance (query : List Char) (g : DGroup) : ℚ :=
  let base : ℚ :=
    max (if listContains query (pyLower g.normalized_name) then 1000
      else if query.isPrefixOf (pyLower g.normalized_name) then 500
      else 100) 100
  if g.vendor_count > 1 then base + 50 else base

/-- One group of `_create_dynamic_groups`, built from a `groups_dict` entry
(`none` when the entry has no products or no product has a price, i.e. the
source's `continue`).  `md5hex` is `hashlib.md5` (the group id is the first
12 hex digits of the digest of the group name). -/
def buildGroup (md5hex : List Char → List Char)
    (entry : List Char × List Row) : Option DGroup :=
  let group_name := entry.1
  let products := entry.2
  if products.isEmpty then none
  else
    let prices := products.foldl
      (fun ps p => match p.price with | some q => ps ++ [q] | none => ps)
      []
    match prices with
    | [] => none
    | p0 :: prest =>
      let min_price := PharmaSearchEngine.pyMin p0 prest
      let max_price := PharmaSearchEngine.pyMax p0 prest
      let avg_price := (p0 :: prest).sum / ((p0 :: prest).length : ℚ)
      let vendors := dedupKeepFirst (products.foldl
        (fun vs p => match p.vendorId with
          | some v => if !v.isEmpty then vs ++ [v] else vs
          | none => vs) [])
      let price_analysis :=
        if products.length > 1 then
          let below_avg :=
            ((p0 :: prest).filter (fun p => decide (p < avg_price))).length
          some
            { savings_potential := max_price - min_price
              price_variation :=
                if avg_price > 0 then
                  (max_price - min_price) / avg_price * 100
                else 0
              below_avg_count := below_avg
              above_avg_count := (p0 :: prest).length - below_avg
              has_multiple_vendors := vendors.length > 1 }
        else none
      some
        { id := (md5hex group_name).take 12
          normalized_name := pyTitle group_name
          products := products
          price_min := min_price
          price_max := max_price
          price_avg := avg_price
          price_range := max_price - min_price
          vendor_count := vendors.length
          product_count := products.length
          dosage_value := (products.headD ⟨[], [], none, none, none, none,
            none⟩).dosageValue
          dosage_unit := (products.headD ⟨[], [], none, none, none, none,
            none⟩).dosageUnit
          price_analysis := price_analysis }

/-- `DuckDBPharmaSearchEngine._create_dynamic_groups`: group rows by
normalized name (falling back to the title), compute per-group price
statistics, sort by group relevance, paginate. -/
def create_dynamic_groups (md5hex : List Char → List Char)
    (rows : List Row) (query : List Char) (limit offset : Nat) :
    List DGroup × Nat :=
  let groups_dict := rows.foldl
    (fun dict product =>
      let group_key :=
        match product.normalizedName with
        | some nn => if !nn.isEmpty then nn else product.title
        | none => product.title
      if !group_key.isEmpty then odictAppend dict (pyLower group_key) product
      else dict)
    []
  let groups := groups_dict.foldl
    (fun acc entry =>
      match buildGroup md5hex entry with
      | some g => acc ++ [g]
      | none => acc)
    []
  let sorted := stableSortBy
    (fun a b => decide (group_relevance query b < group_relevance query a))
    groups
  ((sorted.drop offset).take limit, sorted.length)

/-- A row of `PriceComparisonView` as read by `get_price_comparison`. -/
structure ViewRow where
  product_id : List Char
  title : List Char
  price : ℚ
  vendor_name : List Char
  vendor_website : List Char
  brand_name : List Char
  link : List Char
  thumbnail : List Char
  product_name : List Char
  product_count : Nat
  vendor_count : Nat
  dosage_value : Option ℚ
  dosage_unit : Option (List Char)
  min_price : ℚ
  max_price : ℚ
  avg_price : ℚ
  price_diff_from_avg : ℚ
  price_percentile : ℚ
deriving DecidableEq, Repr

/-- Modelled from the spec: the version of `PriceComparisonView` whose
columns `get_price_comparison` reads (`group_id`, `product_id`, `min_price`,
`max_price`, `avg_price`, `price_diff_from_avg`, `price_percentile`, ...) is
created by a database migration that is not under `src/`
(`create_duckdb_schema.py` ships an older view without these columns).  Per
spec §4.4 the view exposes, for each member of a group ordered by price, the
group-level `min`/`max`/`avg` over the member prices, the member's difference
from the average, and the percentile `(price - min) / (max - min) * 100`
(`0` when `max == min`). -/
def specPriceComparisonRows
    (members : List (List Char × List Char × ℚ)) : List ViewRow :=
  match (members.map (fun m => m.2.2)) with
  | [] => []
  | p0 :: prest =>
    let min_price := PharmaSearchEngine.pyMin p0 prest
    let max_price := PharmaSearchEngine.pyMax p0 prest
    let prices := members.map (fun m => m.2.2)
    let avg_price := prices.sum / (prices.length : ℚ)
    (stableSortBy (fun a b => decide (a.2.2 < b.2.2)) members).map
      (fun m =>
        { product_id := m.1
          title := m.2.1
          price := m.2.2
          vendor_name := []
          vendor_website := []
          brand_name := []
          link := []
          thumbnail := []
          product_name := []
          product_count := members.length
          vendor_count := 1
          dosage_value := none
          dosage_unit := none
          min_price := min_price
          max_price := max_price
          avg_price := avg_price
          price_diff_from_avg := m.2.2 - avg_price
          price_percentile :=
            if max_price = min_price then 0
            else (m.2.2 - min_price) / (max_price - min_price) * 100 })

/-- Group-level data assembled by `get_price_comparison`. -/
structure PCGroupData where
  id : List Char
  name : List Char
  product_count : Nat
  vendor_count : Nat
  price_min : ℚ
  price_max : ℚ
  price_avg : ℚ
  price_range : ℚ
deriving DecidableEq, Repr

/-- Per-product output of `get_price_comparison` with its price analysis. -/
structure PCProduct where
  id : List Char
  title : List Char
  price : ℚ
  diff_from_avg : ℚ
  percentile : ℚ
  is_best_deal : Bool
  is_worst_deal : Bool
deriving DecidableEq, Repr

/-- `DuckDBPharmaSearchEngine.get_price_comparison` over the view rows for a
group (`SELECT * FROM PriceComparisonView WHERE group_id = $1 ORDER BY
price`); raises (`none`) when no rows exist. -/
def get_price_comparison (group_id : List Char) (results : List ViewRow) :
    Option (PCGroupData × List PCProduct) :=
  match results with
  | [] => none
  | first_result :: _ =>
    let group_data : PCGroupData :=
      { id := group_id
        name := first_result.product_name
        product_count := first_result.product_count
        vendor_count := first_result.vendor_count
        price_min := first_result.min_price
        price_max := first_result.max_price
        price_avg := first_result.avg_price
        price_range := first_result.max_price - first_result.min_price }
    let products := results.map (fun result =>
      { id := result.product_id
        title := result.title
        price := result.price
        diff_from_avg := result.price_diff_from_avg
        percentile := result.price_percentile
        is_best_deal := decide (result.price = group_data.price_min)
        is_worst_deal := decide (result.price = group_data.price_max)
        : PCProduct })
    some (group_data, products)

end DuckDBEngine

/-! ### Embedding of `backend/src/normalizer.py` (`PharmaNormalizer`) — the
dosage-extraction piece (`self.patterns["dosage"]`, `_extract_dosage`).
`normalize` lower-cases the title in `_clean_title` before extraction, so the
`re.IGNORECASE` flag is immaterial on the lower-case inputs considered. -/

namespace PharmaNormalizer

/-- Unit normalizations (`self.unit_mappings`). -/
def unit_mappings : List (String × String) :=
  [("gr", "g"), ("grams", "g"), ("gram", "g"), ("kg", "kg"),
   ("kilogram", "kg"), ("mg", "mg"), ("miligram", "mg"), ("milligram", "mg"),
   ("mcg", "mcg"), ("μg", "mcg"), ("mikrogram", "mcg"), ("ml", "ml"),
   ("mililitar", "ml"), ("milliliter", "ml"), ("l", "L"), ("litar", "L"),
   ("liter", "L"), ("c", "caps"), ("cap", "caps"), ("caps", "caps"),
   ("capsule", "caps"), ("kapsule", "caps"), ("kapsula", "caps"),
   ("t", "tab"), ("tab", "tab"), ("tabs", "tab"), ("tablet", "tab"),
   ("tableta", "tab"), ("tablete", "tab"), ("gc", "softgel"),
   ("gelcaps", "softgel"), ("gb", "gummies"), ("gummies", "gummies"),
   ("ser", "serving"), ("serving", "serving"), ("iu", "IU"), ("ie", "IU")]

/-- Number with optional decimal comma or point: `\d+(?:[.,]\d+)?`. -/
def numCommaRE : RE :=
  RE.cat [RE.plus1 RE.dig,
    RE.opt (RE.cat [RE.cls (fun c => c = '.' || c = ','), RE.plus1 RE.dig])]

/-- The dosage patterns `self.patterns["dosage"]` with their group counts, in
source order. -/
def patterns_dosage : List (RE × Nat) :=
  [(RE.cat [RE.grp 1 numCommaRE, RE.wsps, RE.grp 2 (RE.alts (RE.words
      ["mg", "g", "mcg", "μg", "iu", "ie"])), RE.bnd], 2),
   (RE.cat [RE.grp 1 numCommaRE, RE.wsps, RE.grp 2 (RE.alts (RE.words
      ["miligram", "gram", "mikrogram"]))], 2),
   (RE.cat [RE.grp 1 numCommaRE, RE.wsps, RE.chr '%'], 1),
   (RE.cat [RE.grp 1 (RE.plus1 RE.dig), RE.chr '-',
     RE.grp 2 (RE.plus1 RE.dig), RE.chr '-',
     RE.grp 3 (RE.plus1 RE.dig)], 3)]

/-- Replace decimal commas by dots (`match.group(1).replace(",", ".")`). -/
def commaToDot (s : List Char) : List Char :=
  s.map (fun c => if c = ',' then '.' else c)

/-- `PharmaNormalizer._extract_dosage`: first match of the first matching
pattern; a matched text containing `-` (the range pattern) yields no dosage;
decimal commas are normalized before float parsing; a parse failure moves on
to the next pattern (`except: continue`). -/
def extract_dosage (title : List Char) :
    Option ℚ × Option (List Char) × ℚ :=
  let rec go : List (RE × Nat) → Option ℚ × Option (List Char) × ℚ
    | [] => (none, none, 0)
    | (p, ngroups) :: rest =>
      match reSearch p title with
      | some m =>
        if m.mat.contains '-' then (none, none, 0)
        else
          match parsePyFloat (commaToDot ((getGrp 1 m.env).getD [])) with
          | some value =>
            let unit :=
              if ngroups > 1 then
                match getGrp 2 m.env with
                | some u =>
                  let u := pyLower u
                  some (PharmaPreprocessor.tblGet unit_mappings u u)
                | none => none
              else none
            (some value, unit, 9 / 10)
          | none => go rest
      | none => go rest
  go patterns_dosage

end PharmaNormalizer

/-! ### Supporting lemmas -/

theorem pyMin_le_start (x : ℚ) (xs : List ℚ) : PharmaSearchEngine.pyMin x xs ≤ x := by
  induction xs generalizing x with
  | nil => simp [PharmaSearchEngine.pyMin]
  | cons y ys ih =>
    have h := ih (min x y)
    calc PharmaSearchEngine.pyMin x (y :: ys) ≤ min x y := h
    _ ≤ x := min_le_left x y

theorem pyMin_le_mem (x v : ℚ) (xs : List ℚ) (hv : v ∈ xs) :
    PharmaSearchEngine.pyMin x xs ≤ v := by
  induction xs generalizing x with
  | nil => cases hv
  | cons y ys ih =>
    rcases List.mem_cons.mp hv with rfl | hmem
    · calc PharmaSearchEngine.pyMin x (v :: ys) ≤ min x v := pyMin_le_start _ _
      _ ≤ v := min_le_right x v
    · exact ih (min x y) hmem

theorem le_pyMax_start (x : ℚ) (xs : List ℚ) : x ≤ PharmaSearchEngine.pyMax x xs := by
  induction xs generalizing x with
  | nil => simp [PharmaSearchEngine.pyMax]
  | cons y ys ih =>
    have h := ih (max x y)
    calc x ≤ max x y := le_max_left x y
    _ ≤ PharmaSearchEngine.pyMax x (y :: ys) := h

theorem le_pyMax_mem (x v : ℚ) (xs : List ℚ) (hv : v ∈ xs) :
    v ≤ PharmaSearchEngine.pyMax x xs := by
  induction xs generalizing x with
  | nil => cases hv
  | cons y ys ih =>
    rcases List.mem_cons.mp hv with rfl | hmem
    · calc v ≤ max x v := le_max_right x v
      _ ≤ PharmaSearchEngine.pyMax x (v :: ys) := le_pyMax_start _ _
    · exact ih (max x y) hmem

theorem sum_ge_len_mul_min (x : ℚ) (xs : List ℚ) :
    ((xs.length : ℚ) + 1) * PharmaSearchEngine.pyMin x xs ≤ (x :: xs).sum := by
  induction xs generalizing x with
  | nil => simp [PharmaSearchEngine.pyMin]
  | cons y ys ih =>
    have h := ih (min x y)
    have h2 := pyMin_le_start (min x y) ys
    have h3 := min_le_left x y
    have h4 := min_le_right x y
    simp only [List.sum_cons, List.length_cons, PharmaSearchEngine.pyMin,
      List.foldl_cons] at *
    push_cast
    linarith

theorem sum_le_len_mul_max (x : ℚ) (xs : List ℚ) :
    (x :: xs).sum ≤ ((xs.length : ℚ) + 1) * PharmaSearchEngine.pyMax x xs := by
  induction xs generalizing x with
  | nil => simp [PharmaSearchEngine.pyMax]
  | cons y ys ih =>
    have h := ih (max x y)
    have h2 := le_pyMax_start (max x y) ys
    have h3 := le_max_left x y
    have h4 := le_max_right x y
    simp only [List.sum_cons, List.length_cons, PharmaSearchEngine.pyMax,
      List.foldl_cons] at *
    push_cast
    linarith

theorem ratioSim_nonneg (a b : List Char) : 0 ≤ ratioSim a b := by
  unfold ratioSim
  split
  · norm_num
  · apply div_nonneg
    · positivity
    · positivity

/-! ### Claims -/

/-- C6.  Normalizer total-function fallback: the embedded
`preprocess_product` is a total function (it never raises — every Python-side
exception source is guarded in the source, and the embedding is total by
construction), and on empty (falsy) input it returns the zero-value identity
`_empty_identity`, whose `normalized_name` equals the original (empty) input
title and whose other extracted fields are all empty. -/
theorem C6_normalize_empty_fallback (b : Option (List Char)) :
    PharmaPreprocessor.preprocess_product [] b =
      PharmaPreprocessor.empty_identity ∧
    PharmaPreprocessor.empty_identity.normalized_name = ([] : List Char) ∧
    PharmaPreprocessor.empty_identity.base_name = ([] : List Char) ∧
    PharmaPreprocessor.empty_identity.brand = ([] : List Char) ∧
    PharmaPreprocessor.empty_identity.strength = ([] : List Char) ∧
    PharmaPreprocessor.empty_identity.form = ([] : List Char) ∧
    PharmaPreprocessor.empty_identity.size = ([] : List Char) ∧
    PharmaPreprocessor.empty_identity.variant = ([] : List Char) ∧
    PharmaPreprocessor.empty_identity.category = ([] : List Char) ∧
    PharmaPreprocessor.empty_identity.search_tokens = ([] : List (List Char)) ∧
    PharmaPreprocessor.empty_identity.grouping_key = ([] : List Char) :=
  ⟨rfl, rfl, rfl, rfl, rfl, rfl, rfl, rfl, rfl, rfl, rfl⟩

set_option maxRecDepth 100000 in
/-- C8.  Strength extraction edge cases of `_extract_dosage`: only the first
regex match counts (`"cink 500 mg 200 mg"` yields `500 mg`, the second
strength is ignored); the dash range `"20-30-40"` yields no strength at all
(`(None, None, 0.0)`); a decimal comma is converted to a dot before float
parsing (`"omega 1,5 g"` parses to the rational `3/2`); and a bare number
with no recognized unit yields no strength (`"supplement 500"`). -/
theorem C8_strength_extraction_edge_cases :
    PharmaNormalizer.extract_dosage "cink 500 mg 200 mg".data =
      (some 500, some "mg".data, mkRat 9 10) ∧
    PharmaNormalizer.extract_dosage "20-30-40".data = (none, none, 0) ∧
    PharmaNormalizer.extract_dosage "omega 1,5 g".data =
      (some (mkRat 3 2), some "g".data, mkRat 9 10) ∧
    PharmaNormalizer.extract_dosage "supplement 500".data = (none, none, 0) := by
  with_unfolding_all decide

/-- C9.  Semantic-tier graceful degradation: with no semantic index loaded
(`index = none`), `_semantic_search` returns the empty candidate list (and
raises no error — the embedding is total), so `find_similar_products` equals
the combination of the exact and fuzzy tiers alone. -/
theorem C9_semantic_tier_degrades (names ids : List (List Char))
    (q : List Char) (k : Nat) (t : ℚ) :
    SimilarityMatcher.semantic_search ⟨names, ids, none⟩ q k
      ((pyStrip (pyLower q)).length) = [] ∧
    SimilarityMatcher.find_similar_products ⟨names, ids, none⟩ q k t =
      (SimilarityMatcher.combine_and_deduplicate_results
        (SimilarityMatcher.exact_word_matches ⟨names, ids, none⟩
            (pyStrip (pyLower q)) (pyStrip (pyLower q)).length ++
          SimilarityMatcher.fuzzy_search ⟨names, ids, none⟩ q k
            (pyStrip (pyLower q)).length)
        (if (pyStrip (pyLower q)).length ≤ 2 then max (2 / 10) (t * (3 / 10))
          else if (pyStrip (pyLower q)).length ≤ 4 then
            max (4 / 10) (t * (6 / 10))
          else t)).take k := by
  refine ⟨rfl, ?_⟩
  simp [SimilarityMatcher.find_similar_products,
    SimilarityMatcher.semantic_search]

namespace PharmaSearchEngine

theorem cacheGet_cons_self (k : List Char) (e : CacheEntry) (rest : Cache) :
    cacheGet ((k, e) :: rest) k = some e := by
  simp [cacheGet, List.find?]

end PharmaSearchEngine

/-- C7.  Cache TTL: a cached entry with timestamp `T` is never returned by a
read at a time strictly later than `T + 300`; the lazy validity check fails,
the read is a miss, and the result is freshly recomputed through the search
path. -/
theorem C7_cache_ttl (env : PharmaSearchEngine.RunEnv)
    (snap : PharmaSearchEngine.Snapshot) (cache : PharmaSearchEngine.Cache)
    (now T : ℚ) (q : List Char) (f : Option PharmaSearchEngine.Filters)
    (gr : Bool) (lim off : Nat) (fdb : Bool)
    (res : PharmaSearchEngine.SearchResult)
    (hkey : PharmaSearchEngine.cacheGet cache
      (PharmaSearchEngine.get_cache_key env.md5 q f lim off
        (if fdb then "db".data else "hybrid".data)) = some ⟨res, T⟩)
    (ht : now > T + 300) :
    (PharmaSearchEngine.search env snap cache now q f gr lim off fdb).1 =
      (if gr then
        PharmaSearchEngine.db_search_groups_enhanced env snap q f lim off
      else PharmaSearchEngine.search_products snap q f lim off) ∧
    PharmaSearchEngine.is_cache_valid ⟨res, T⟩ now = false := by
  have hvalid : PharmaSearchEngine.is_cache_valid ⟨res, T⟩ now = false := by
    simp only [PharmaSearchEngine.is_cache_valid, decide_eq_false_iff_not,
      not_lt]
    linarith
  refine ⟨?_, hvalid⟩
  simp only [PharmaSearchEngine.search, hkey, hvalid, Bool.false_eq_true,
    if_false]

/-- C7 witness: a concrete expired entry (inserted at `T = 0`, read at
`now = 301`) misses and is recomputed against an empty snapshot. -/
theorem C7_cache_ttl_witness :
    (PharmaSearchEngine.search ⟨fun s => s, fun _ => 0, none⟩
      ⟨fun _ _ => [], [], fun _ => [], fun _ _ _ _ => ([], 0)⟩
      [(PharmaSearchEngine.get_cache_key (fun s => s) "cink".data none 100 0
          "hybrid".data,
        ⟨PharmaSearchEngine.SearchResult.groupsPage [] 7 7 7 none, 0⟩)]
      301 "cink".data none true 100 0 false).1 =
      PharmaSearchEngine.db_search_groups_enhanced
        ⟨fun s => s, fun _ => 0, none⟩
        ⟨fun _ _ => [], [], fun _ => [], fun _ _ _ _ => ([], 0)⟩
        "cink".data none 100 0 := by
  have h := C7_cache_ttl ⟨fun s => s, fun _ => 0, none⟩
    ⟨fun _ _ => [], [], fun _ => [], fun _ _ _ _ => ([], 0)⟩
    [(PharmaSearchEngine.get_cache_key (fun s => s) "cink".data none 100 0
        "hybrid".data,
      ⟨PharmaSearchEngine.SearchResult.groupsPage [] 7 7 7 none, 0⟩)]
    301 0 "cink".data none true 100 0 false
    (PharmaSearchEngine.SearchResult.groupsPage [] 7 7 7 none)
    (PharmaSearchEngine.cacheGet_cons_self _ _ _) (by norm_num)
  simpa using h.1

/-- C10.  Cache-key normalization: queries equal after lower-casing and
stripping produce identical cache keys (for any digest function and identical
filters, limit, offset and search type); consequently a second `search` call
within the TTL that differs from the first only in letter case or surrounding
whitespace is answered from the cache with the first call's result page. -/
theorem C10_cache_key_normalization (md5fn : List Char → List Char)
    (env : PharmaSearchEngine.RunEnv) (snap : PharmaSearchEngine.Snapshot)
    (q1 q2 : List Char) (f : Option PharmaSearchEngine.Filters)
    (lim off : Nat) (st : List Char) (gr fdb : Bool) (now1 now2 : ℚ)
    (hq : pyStrip (pyLower q1) = pyStrip (pyLower q2))
    (httl : now2 - now1 < 300) :
    PharmaSearchEngine.get_cache_key md5fn q1 f lim off st =
      PharmaSearchEngine.get_cache_key md5fn q2 f lim off st ∧
    (PharmaSearchEngine.search env snap
      ((PharmaSearchEngine.search env snap [] now1 q1 f gr lim off fdb).2)
      now2 q2 f gr lim off fdb).1 =
      (PharmaSearchEngine.search env snap [] now1 q1 f gr lim off fdb).1 := by
  have hgen : ∀ md : List Char → List Char,
      PharmaSearchEngine.get_cache_key md q1 f lim off
        (if fdb then "db".data else "hybrid".data) =
      PharmaSearchEngine.get_cache_key md q2 f lim off
        (if fdb then "db".data else "hybrid".data) := by
    intro md
    simp only [PharmaSearchEngine.get_cache_key, hq]
  constructor
  · simp only [PharmaSearchEngine.get_cache_key, hq]
  · have hvalid : PharmaSearchEngine.is_cache_valid
        ⟨(if gr then
            PharmaSearchEngine.db_search_groups_enhanced env snap q1 f lim off
          else PharmaSearchEngine.search_products snap q1 f lim off), now1⟩
        now2 = true := by
      simp only [PharmaSearchEngine.is_cache_valid, decide_eq_true_eq]
      linarith
    conv_lhs =>
      rw [show (PharmaSearchEngine.search env snap [] now1 q1 f gr lim off
        fdb).2 =
        [(PharmaSearchEngine.get_cache_key env.md5 q1 f lim off
            (if fdb then "db".data else "hybrid".data),
          ⟨(if gr then PharmaSearchEngine.db_search_groups_enhanced env snap
              q1 f lim off
            else PharmaSearchEngine.search_products snap q1 f lim off),
            now1⟩)] from rfl]
    simp only [PharmaSearchEngine.search, ← hgen env.md5,
      PharmaSearchEngine.cacheGet_cons_self, hvalid, if_true]
    rfl

/-- C10 witness: `"  CINK "` and `"cink"` produce the same cache key, and the
second call 10 seconds after the first returns the first call's page. -/
theorem C10_cache_key_normalization_witness :
    PharmaSearchEngine.get_cache_key (fun s => s) "  CINK ".data none 100 0
      "hybrid".data =
    PharmaSearchEngine.get_cache_key (fun s => s) "cink".data none 100 0
      "hybrid".data ∧
    (PharmaSearchEngine.search ⟨fun s => s, fun _ => 0, none⟩
      ⟨fun _ _ => [], [], fun _ => [], fun _ _ _ _ => ([], 0)⟩
      ((PharmaSearchEngine.search ⟨fun s => s, fun _ => 0, none⟩
        ⟨fun _ _ => [], [], fun _ => [], fun _ _ _ _ => ([], 0)⟩
        [] 0 "  CINK ".data none true 100 0 false).2)
      10 "cink".data none true 100 0 false).1 =
      (PharmaSearchEngine.search ⟨fun s => s, fun _ => 0, none⟩
        ⟨fun _ _ => [], [], fun _ => [], fun _ _ _ _ => ([], 0)⟩
        [] 0 "  CINK ".data none true 100 0 false).1 :=
  C10_cache_key_normalization (fun s => s) ⟨fun s => s, fun _ => 0, none⟩
    ⟨fun _ _ => [], [], fun _ => [], fun _ _ _ _ => ([], 0)⟩
    "  CINK ".data "cink".data none 100 0 "hybrid".data true false 0 10
    (by with_unfolding_all decide) (by norm_num)

/-- C2 (amended).  Search determinism within one process: for a fixed
snapshot and a fixed runtime environment (in particular a fixed string-hash
seed), calling `search` twice with the same query, filters, limit, offset and
mode — the second call starting from the cache state the first call left —
returns identical result pages (whether the second call hits the cache or
recomputes after expiry). -/
theorem C2_search_deterministic_fixed_env (env : PharmaSearchEngine.RunEnv)
    (snap : PharmaSearchEngine.Snapshot) (q : List Char)
    (f : Option PharmaSearchEngine.Filters) (gr : Bool) (lim off : Nat)
    (fdb : Bool) (now1 now2 : ℚ) :
    (PharmaSearchEngine.search env snap
      ((PharmaSearchEngine.search env snap [] now1 q f gr lim off fdb).2)
      now2 q f gr lim off fdb).1 =
      (PharmaSearchEngine.search env snap [] now1 q f gr lim off fdb).1 := by
  conv_lhs =>
    rw [show (PharmaSearchEngine.search env snap [] now1 q f gr lim off
      fdb).2 =
      [(PharmaSearchEngine.get_cache_key env.md5 q f lim off
          (if fdb then "db".data else "hybrid".data),
        ⟨(if gr then PharmaSearchEngine.db_search_groups_enhanced env snap
            q f lim off
          else PharmaSearchEngine.search_products snap q f lim off),
          now1⟩)] from rfl]
  simp only [PharmaSearchEngine.search, PharmaSearchEngine.cacheGet_cons_self]
  cases hv : PharmaSearchEngine.is_cache_valid
      ⟨(if gr then PharmaSearchEngine.db_search_groups_enhanced env snap q f
          lim off
        else PharmaSearchEngine.search_products snap q f lim off), now1⟩
      now2 with
  | true => simp only [if_true]; rfl
  | false => simp only [Bool.false_eq_true, if_false]; rfl

set_option maxRecDepth 1000000 in
/-- C2 (counterexample).  Search determinism as stated — identical pages with
identical group ids across two independent runs of the program — fails: group
ids are derived from Python's per-process salted string `hash`
(`f"hybrid_{abs(hash(group_key))}"`), so two runs of the same search over the
same snapshot that differ only in the process's hash seed return different
pages. -/
theorem C2_counterexample :
    (PharmaSearchEngine.search ⟨fun s => s, fun _ => 0, none⟩
      ⟨fun q _ => if q = "cink".data then ["p1".data] else [],
        [⟨"p1".data, "cink 5 mg".data, 10, "v1".data, "V1".data,
          some "solgar".data, none, [], []⟩],
        fun _ => [], fun _ _ _ _ => ([], 0)⟩
      [] 0 "cink".data none true 100 0 false).1 ≠
    (PharmaSearchEngine.search ⟨fun s => s, fun _ => 1, none⟩
      ⟨fun q _ => if q = "cink".data then ["p1".data] else [],
        [⟨"p1".data, "cink 5 mg".data, 10, "v1".data, "V1".data,
          some "solgar".data, none, [], []⟩],
        fun _ => [], fun _ _ _ _ => ([], 0)⟩
      [] 0 "cink".data none true 100 0 false).1 := by
  with_unfolding_all decide

theorem splitOnChar_go_noSep (sep : Char) (l : List Char) (acc : List Char)
    (h : ∀ c ∈ l, c ≠ sep) :
    splitOnChar.go sep l acc = [acc.reverse ++ l] := by
  induction l generalizing acc with
  | nil => simp [splitOnChar.go]
  | cons c rest ih =>
    have hc : c ≠ sep := h c (List.mem_cons_self c rest)
    rw [splitOnChar.go, if_neg hc,
      ih (c :: acc) (fun d hd => h d (List.mem_cons_of_mem c hd))]
    simp

theorem splitOnChar_go_sep (sep : Char) (x rest : List Char) (acc : List Char)
    (h : ∀ c ∈ x, c ≠ sep) :
    splitOnChar.go sep (x ++ sep :: rest) acc =
      (acc.reverse ++ x) :: splitOnChar.go sep rest [] := by
  induction x generalizing acc with
  | nil => simp [splitOnChar.go]
  | cons c xs ih =>
    have hc : c ≠ sep := h c (List.mem_cons_self c xs)
    rw [List.cons_append, splitOnChar.go, if_neg hc,
      ih (c :: acc) (fun d hd => h d (List.mem_cons_of_mem c hd))]
    simp

theorem splitOnChar_key4 (sep : Char) (b1 b2 b3 b4 : List Char)
    (h1 : ∀ c ∈ b1, c ≠ sep) (h2 : ∀ c ∈ b2, c ≠ sep)
    (h3 : ∀ c ∈ b3, c ≠ sep) (h4 : ∀ c ∈ b4, c ≠ sep) :
    splitOnChar sep (b1 ++ [sep] ++ b2 ++ [sep] ++ b3 ++ [sep] ++ b4) =
      [b1, b2, b3, b4] := by
  have e : b1 ++ [sep] ++ b2 ++ [sep] ++ b3 ++ [sep] ++ b4 =
      b1 ++ sep :: (b2 ++ sep :: (b3 ++ sep :: b4)) := by simp
  rw [splitOnChar, e, splitOnChar_go_sep sep b1 _ [] h1,
    splitOnChar_go_sep sep b2 _ [] h2, splitOnChar_go_sep sep b3 _ [] h3,
    splitOnChar_go_noSep sep b4 [] h4]
  simp

theorem should_group_by_keys_brand_ignored (base b1 b2 s cat : List Char)
    (hbase : ∀ c ∈ base, c ≠ '|') (hb1 : ∀ c ∈ b1, c ≠ '|')
    (hb2 : ∀ c ∈ b2, c ≠ '|') (hs : ∀ c ∈ s, c ≠ '|')
    (hcat : ∀ c ∈ cat, c ≠ '|') :
    PharmaPreprocessor.should_group_by_keys
      (base ++ ['|'] ++ b1 ++ ['|'] ++ s ++ ['|'] ++ cat)
      (base ++ ['|'] ++ b2 ++ ['|'] ++ s ++ ['|'] ++ cat) (75 / 100) = true := by
  have hne1 : (base ++ ['|'] ++ b1 ++ ['|'] ++ s ++ ['|'] ++ cat).isEmpty =
      false := by
    cases base <;> simp [List.isEmpty]
  have hne2 : (base ++ ['|'] ++ b2 ++ ['|'] ++ s ++ ['|'] ++ cat).isEmpty =
      false := by
    cases base <;> simp [List.isEmpty]
  unfold PharmaPreprocessor.should_group_by_keys
  simp only [hne1, hne2, Bool.or_self, Bool.false_eq_true, if_false]
  by_cases heq : base ++ ['|'] ++ b1 ++ ['|'] ++ s ++ ['|'] ++ cat =
      base ++ ['|'] ++ b2 ++ ['|'] ++ s ++ ['|'] ++ cat
  · rw [if_pos heq]
  · rw [if_neg heq, splitOnChar_key4 '|' base b1 s cat hbase hb1 hs hcat,
      splitOnChar_key4 '|' base b2 s cat hbase hb2 hs hcat]
    have hb12 : b1 ≠ b2 := fun hbb => heq (by rw [hbb])
    simp only [List.length_cons, List.length_nil, ne_eq, not_true_eq_false,
      if_false, List.zip_cons_cons, List.zip_nil_right, List.map_cons,
      List.map_nil, if_pos (rfl : base = base), if_neg hb12,
      if_pos (rfl : s = s), if_pos (rfl : cat = cat), List.sum_cons,
      List.sum_nil, decide_eq_true_eq, ge_iff_le]
    have hr : (0 : ℚ) ≤ ratioSim b1 b2 / 100 :=
      div_nonneg (ratioSim_nonneg b1 b2) (by norm_num)
    rw [le_div_iff (by norm_num)]
    push_cast
    linarith

namespace PharmaSearchEngine

theorem group_products_hybrid_pair (pyHash : List Char → Int)
    (mlp : Option MLP) (p q : DBProduct) (ids : List (List Char))
    (hp : (PharmaPreprocessor.preprocess_product p.title
      p.brand_name).grouping_key.isEmpty = false)
    (hq : (PharmaPreprocessor.preprocess_product q.title
      q.brand_name).grouping_key.isEmpty = false)
    (hsim : PharmaPreprocessor.should_group_by_keys
      (PharmaPreprocessor.preprocess_product q.title q.brand_name).grouping_key
      (PharmaPreprocessor.preprocess_product p.title p.brand_name).grouping_key
      (75 / 100) = true) :
    group_products_hybrid pyHash mlp [p, q] ids =
      [create_group_from_products [p, q] ids
        ("hybrid_".data ++ PharmaPreprocessor.natToChars (Int.natAbs (pyHash
          (PharmaPreprocessor.preprocess_product p.title
            p.brand_name).grouping_key)))] := by
  simp only [group_products_hybrid, List.map_cons, List.map_nil,
    List.foldl_cons, List.foldl_nil, hp, hq, Bool.false_eq_true, if_false,
    findTargetKey, findTargetKey.go, hsim, Bool.true_or, if_true, dictAppend,
    dictAppend.go, if_pos rfl, List.isEmpty_cons, List.append_nil,
    List.nil_append, stableSortBy, stableInsert]
  simp

end PharmaSearchEngine

/-- C1 (amended).  No brand veto exists in the hybrid grouping step: the
brand is only one of the averaged grouping-key part similarities, so whenever
two products' extracted grouping keys agree on the base-name, strength and
category parts, `_group_products_hybrid` places the two products in the same
result group even though both extracted brands are non-empty and different
(the average part similarity is at least 3/4 regardless of the brands). -/
theorem C1_no_brand_veto (pyHash : List Char → Int)
    (mlp : Option PharmaSearchEngine.MLP)
    (p q : PharmaSearchEngine.DBProduct) (ids : List (List Char))
    (base s cat : List Char)
    (hbase : ∀ c ∈ base, c ≠ '|') (hs : ∀ c ∈ s, c ≠ '|')
    (hcat : ∀ c ∈ cat, c ≠ '|')
    (hbp : ∀ c ∈ (PharmaPreprocessor.preprocess_product p.title
      p.brand_name).brand, c ≠ '|')
    (hbq : ∀ c ∈ (PharmaPreprocessor.preprocess_product q.title
      q.brand_name).brand, c ≠ '|')
    (hbpne : (PharmaPreprocessor.preprocess_product p.title
      p.brand_name).brand ≠ [])
    (hbqne : (PharmaPreprocessor.preprocess_product q.title
      q.brand_name).brand ≠ [])
    (hdiff : (PharmaPreprocessor.preprocess_product p.title
      p.brand_name).brand ≠
      (PharmaPreprocessor.preprocess_product q.title q.brand_name).brand)
    (hkp : (PharmaPreprocessor.preprocess_product p.title
      p.brand_name).grouping_key =
      base ++ ['|'] ++ (PharmaPreprocessor.preprocess_product p.title
        p.brand_name).brand ++ ['|'] ++ s ++ ['|'] ++ cat)
    (hkq : (PharmaPreprocessor.preprocess_product q.title
      q.brand_name).grouping_key =
      base ++ ['|'] ++ (PharmaPreprocessor.preprocess_product q.title
        q.brand_name).brand ++ ['|'] ++ s ++ ['|'] ++ cat) :
    (PharmaSearchEngine.group_products_hybrid pyHash mlp [p, q] ids).length
      = 1 ∧
    ∀ g ∈ PharmaSearchEngine.group_products_hybrid pyHash mlp [p, q] ids,
      p.id ∈ g.products.map (fun x => x.id) ∧
      q.id ∈ g.products.map (fun x => x.id) := by
  have hkeyne : ∀ b : List Char,
      (base ++ ['|'] ++ b ++ ['|'] ++ s ++ ['|'] ++ cat).isEmpty = false := by
    intro b
    cases base <;> simp [List.isEmpty]
  have hpair := PharmaSearchEngine.group_products_hybrid_pair pyHash mlp p q
    ids (by rw [hkp]; exact hkeyne _) (by rw [hkq]; exact hkeyne _)
    (by rw [hkp, hkq]
        exact should_group_by_keys_brand_ignored base _ _ s cat hbase hbq hbp
          hs hcat)
  rw [hpair]
  refine ⟨rfl, ?_⟩
  intro g hg
  rcases List.mem_singleton.mp hg with rfl
  unfold PharmaSearchEngine.create_group_from_products
  constructor
  · have hpmem : p ∈ stableSortBy
        (fun a b => decide (a.price < b.price)) [p, q] :=
      (stableSortBy_mem _ _ _).mpr (by simp)
    simpa using List.mem_map_of_mem (fun x => x.id)
      (List.mem_map_of_mem (fun x : PharmaSearchEngine.DBProduct =>
        (⟨x.id, x.title, x.price, x.vendorId, x.vendor_name, x.link,
          x.thumbnail, x.brand_name⟩ : PharmaSearchEngine.OutProduct)) hpmem)
  · have hqmem : q ∈ stableSortBy
        (fun a b => decide (a.price < b.price)) [p, q] :=
      (stableSortBy_mem _ _ _).mpr (by simp)
    simpa using List.mem_map_of_mem (fun x => x.id)
      (List.mem_map_of_mem (fun x : PharmaSearchEngine.DBProduct =>
        (⟨x.id, x.title, x.price, x.vendorId, x.vendor_name, x.link,
          x.thumbnail, x.brand_name⟩ : PharmaSearchEngine.OutProduct)) hqmem)

set_option maxRecDepth 1000000 in
/-- C1 (counterexample).  The brand veto as stated fails: the two concrete
products `"cink 500 mg"` from brands `solgar` and `natrol` have extracted
identities with distinct non-empty brands, yet `_group_products_hybrid`
places both in the same result group — their grouping keys differ only in the
brand part, and `should_group_by_keys` averages the part similarities, which
clears the 0.75 threshold regardless of the brands. -/
theorem C1_counterexample :
    (PharmaPreprocessor.preprocess_product "cink 500 mg".data
      (some "solgar".data)).brand = "solgar".data ∧
    (PharmaPreprocessor.preprocess_product "cink 500 mg".data
      (some "natrol".data)).brand = "natrol".data ∧
    (PharmaSearchEngine.group_products_hybrid (fun _ => 0) none
      [⟨"A".data, "cink 500 mg".data, 10, "v1".data, "V1".data,
        some "solgar".data, none, [], []⟩,
       ⟨"N".data, "cink 500 mg".data, 7, "v4".data, "V4".data,
        some "natrol".data, none, [], []⟩]
      ["A".data, "N".data]).map
      (fun g => g.products.map (fun x => x.id)) =
      [["N".data, "A".data]] := by
  with_unfolding_all decide

/-- C1 witness for the amended theorem: the amended statement applied to the
two concrete `cink 500 mg` products of different brands. -/
theorem C1_no_brand_veto_witness :
    (PharmaSearchEngine.group_products_hybrid (fun _ => 0) none
      [⟨"A".data, "cink 500 mg".data, 10, "v1".data, "V1".data,
        some "solgar".data, none, [], []⟩,
       ⟨"N".data, "cink 500 mg".data, 7, "v4".data, "V4".data,
        some "natrol".data, none, [], []⟩]
      ["A".data, "N".data]).length = 1 ∧
    ∀ g ∈ PharmaSearchEngine.group_products_hybrid (fun _ => 0) none
      [⟨"A".data, "cink 500 mg".data, 10, "v1".data, "V1".data,
        some "solgar".data, none, [], []⟩,
       ⟨"N".data, "cink 500 mg".data, 7, "v4".data, "V4".data,
        some "natrol".data, none, [], []⟩]
      ["A".data, "N".data],
      "A".data ∈ g.products.map (fun x => x.id) ∧
      "N".data ∈ g.products.map (fun x => x.id) :=
  C1_no_brand_veto (fun _ => 0) none
    ⟨"A".data, "cink 500 mg".data, 10, "v1".data, "V1".data,
      some "solgar".data, none, [], []⟩
    ⟨"N".data, "cink 500 mg".data, 7, "v4".data, "V4".data,
      some "natrol".data, none, [], []⟩
    ["A".data, "N".data] "cink".data "500 mg".data "minerals".data
    (by with_unfolding_all decide) (by with_unfolding_all decide)
    (by with_unfolding_all decide) (by with_unfolding_all decide)
    (by with_unfolding_all decide) (by with_unfolding_all decide)
    (by with_unfolding_all decide) (by with_unfolding_all decide)
    (by with_unfolding_all decide) (by with_unfolding_all decide)

/-- Position of the first occurrence of a product id in the ranked candidate
list (following the claim's words: the rank of a group's first-appearing
member; used to compare the claimed ordering with the code's ordering). -/
def firstIndexOf (ids : List (List Char)) (pid : List Char) : Nat :=
  (ids.findIdx? (fun x => x = pid)).getD ids.length

/-- Relevance rank of a group as the claim states it: the candidate-list
position of the group's first-appearing member. -/
def firstAppearanceRank (ids : List (List Char))
    (g : PharmaSearchEngine.PGroup) : Nat :=
  (g.products.map (fun p => firstIndexOf ids p.id)).foldl min ids.length

set_option maxRecDepth 1000000 in
/-- C4 (counterexample).  Group ordering does not follow the position of each
group's first-appearing member: with relevance-ranked candidates `A, B, C`,
where `A` (candidate rank 0) groups with the cheaper `C` (rank 2) and `B`
(rank 1) stays alone, the code ranks the `{C, A}` group by its cheapest
member's position (2), so the group containing the most relevant candidate
`A` is ordered after the `{B}` group — a group of lower first-appearance
relevance precedes one of higher relevance. -/
theorem C4_counterexample :
    (PharmaSearchEngine.group_products_hybrid (fun _ => 0) none
      [⟨"C".data, "cink 500 mg".data, 1, "v2".data, "V2".data,
        some "solgar".data, none, [], []⟩,
       ⟨"B".data, "omega 3 kapi".data, 5, "v3".data, "V3".data,
        some "esi".data, none, [], []⟩,
       ⟨"A".data, "cink 500 mg".data, 10, "v1".data, "V1".data,
        some "solgar".data, none, [], []⟩]
      ["A".data, "B".data, "C".data]).map
      (fun g => (g.products.map (fun x => x.id), g.search_rank,
        firstAppearanceRank ["A".data, "B".data, "C".data] g)) =
      [(["B".data], 1, 1), (["C".data, "A".data], 2, 0)] := by
  with_unfolding_all decide

/-- C4 (amended).  Group ordering in `_group_products_hybrid` is by the pair
`(search_rank, -vendor_count)`: primarily ascending in `search_rank`, which
is the candidate-list position of each group's lowest-priced member (the
group's product list is sorted by price before the rank is taken), with
vendor count descending as the tie-break; vendor count never overrides the
`search_rank` order. -/
theorem C4_group_ordering (pyHash : List Char → Int)
    (mlp : Option PharmaSearchEngine.MLP)
    (products : List PharmaSearchEngine.DBProduct)
    (ids : List (List Char)) :
    (PharmaSearchEngine.group_products_hybrid pyHash mlp products
      ids).Pairwise
      (fun g1 g2 => g1.search_rank < g2.search_rank ∨
        (g1.search_rank = g2.search_rank ∧
          g2.vendor_count ≤ g1.vendor_count)) := by
  have hneg : ∀ a b c : PharmaSearchEngine.PGroup,
      PharmaSearchEngine.groupLt b a = false →
      PharmaSearchEngine.groupLt c b = false →
      PharmaSearchEngine.groupLt c a = false := by
    intro a b c h1 h2
    simp only [PharmaSearchEngine.groupLt, Bool.or_eq_false_iff,
      Bool.and_eq_false_iff, decide_eq_false_iff_not, not_lt] at h1 h2 ⊢
    omega
  have hasym : ∀ a b : PharmaSearchEngine.PGroup,
      PharmaSearchEngine.groupLt a b = true →
      PharmaSearchEngine.groupLt b a = false := by
    intro a b h
    simp only [PharmaSearchEngine.groupLt, Bool.or_eq_true,
      Bool.and_eq_true, decide_eq_true_eq, Bool.or_eq_false_iff,
      Bool.and_eq_false_iff, decide_eq_false_iff_not, not_lt] at h ⊢
    omega
  have hconv : ∀ g1 g2 : PharmaSearchEngine.PGroup,
      PharmaSearchEngine.groupLt g2 g1 = false →
      (g1.search_rank < g2.search_rank ∨
        (g1.search_rank = g2.search_rank ∧
          g2.vendor_count ≤ g1.vendor_count)) := by
    intro g1 g2 h
    simp only [PharmaSearchEngine.groupLt, Bool.or_eq_false_iff,
      Bool.and_eq_false_iff, decide_eq_false_iff_not, not_lt] at h
    omega
  unfold PharmaSearchEngine.group_products_hybrid
  exact (stableSortBy_pairwise _ hneg hasym _).imp (fun h => hconv _ _ h)

namespace DuckDBEngine

/-- The price collector of `buildGroup` appends onto its accumulator. -/
theorem priceFold_append (products : List Row) (acc : List ℚ) :
    products.foldl
      (fun ps p => match p.price with | some q => ps ++ [q] | none => ps)
      acc =
    acc ++ products.foldl
      (fun ps p => match p.price with | some q => ps ++ [q] | none => ps)
      [] := by
  induction products generalizing acc with
  | nil => simp
  | cons p rest ih =>
    cases hpq : p.price with
    | none => simp only [List.foldl_cons, hpq]; exact ih acc
    | some q =>
      simp only [List.foldl_cons, hpq, List.nil_append]
      rw [ih (acc ++ [q]), ih [q]]
      simp

/-- Every priced member's price occurs in the collected price list. -/
theorem mem_priceFold (products : List Row) (p : Row) (v : ℚ)
    (hp : p ∈ products) (hv : p.price = some v) :
    v ∈ products.foldl
      (fun ps q => match q.price with | some w => ps ++ [w] | none => ps)
      [] := by
  induction products with
  | nil => cases hp
  | cons r rest ih =>
    rcases List.mem_cons.mp hp with rfl | hmem
    · simp only [List.foldl_cons, hv, List.nil_append]
      rw [priceFold_append rest [v]]
      simp
    · cases hpq : r.price with
      | none => simp only [List.foldl_cons, hpq]; exact ih hmem
      | some w =>
        simp only [List.foldl_cons, hpq, List.nil_append]
        rw [priceFold_append rest [w]]
        simp only [List.mem_append]
        right
        exact ih hmem

/-- Price-statistics soundness of a built group: the reported minimum is at
most every priced member's price, the maximum at least it, and the average
lies between minimum and maximum. -/
theorem buildGroup_sound (md5hex : List Char → List Char)
    (entry : List Char × List Row) (g : DGroup)
    (h : buildGroup md5hex entry = some g) :
    (∀ p ∈ g.products, ∀ v : ℚ, p.price = some v →
      g.price_min ≤ v ∧ v ≤ g.price_max) ∧
    g.price_min ≤ g.price_avg ∧ g.price_avg ≤ g.price_max := by
  unfold buildGroup at h
  by_cases hemp : entry.2.isEmpty
  · simp [hemp] at h
  · simp only [hemp, Bool.false_eq_true, if_false] at h
    cases hprices : entry.2.foldl
        (fun ps p => match p.price with | some q => ps ++ [q] | none => ps)
        [] with
    | nil => rw [hprices] at h; cases h
    | cons p0 prest =>
      rw [hprices] at h
      cases h
      have hlen : (0 : ℚ) < (prest.length : ℚ) + 1 := by positivity
      have hcast : (((p0 :: prest).length : ℚ)) = (prest.length : ℚ) + 1 := by
        simp only [List.length_cons]
        push_cast
        ring
      refine ⟨?_, ?_, ?_⟩
      · intro p hp v hv
        have hvmem : v ∈ p0 :: prest := by
          rw [← hprices]
          exact mem_priceFold entry.2 p v hp hv
        dsimp only
        rcases List.mem_cons.mp hvmem with rfl | hmem
        · exact ⟨pyMin_le_start _ _, le_pyMax_start _ _⟩
        · exact ⟨pyMin_le_mem _ _ _ hmem, le_pyMax_mem _ _ _ hmem⟩
      · have hs := sum_ge_len_mul_min p0 prest
        dsimp only
        rw [hcast, le_div_iff hlen]
        linarith
      · have hs := sum_le_len_mul_max p0 prest
        dsimp only
        rw [hcast, div_le_iff hlen]
        linarith

/-- Every group in the accumulated group list of `create_dynamic_groups`
comes from `buildGroup`. -/
theorem mem_groupFold (md5hex : List Char → List Char)
    (dict : List (List Char × List Row)) (acc : List DGroup) (g : DGroup)
    (hacc : ∀ g2 ∈ acc, ∃ entry, buildGroup md5hex entry = some g2)
    (hg : g ∈ dict.foldl
      (fun acc2 entry =>
        match buildGroup md5hex entry with
        | some g2 => acc2 ++ [g2]
        | none => acc2)
      acc) :
    ∃ entry, buildGroup md5hex entry = some g := by
  induction dict generalizing acc with
  | nil => exact hacc g hg
  | cons e rest ih =>
    simp only [List.foldl_cons] at hg
    cases hbe : buildGroup md5hex e with
    | none =>
      rw [hbe] at hg
      exact ih acc hacc hg
    | some g2 =>
      rw [hbe] at hg
      refine ih (acc ++ [g2]) ?_ hg
      intro g3 hg3
      rcases List.mem_append.mp hg3 with h3 | h3
      · exact hacc g3 h3
      · rcases List.mem_singleton.mp h3 with rfl
        exact ⟨e, hbe⟩

/-- The claim's notion of the minimum member price of a group handed to the
price-comparison view. -/
def memberPriceMin (members : List (List Char × List Char × ℚ)) : ℚ :=
  match members.map (fun m => m.2.2) with
  | [] => 0
  | p0 :: prest => PharmaSearchEngine.pyMin p0 prest

/-- Every row of the spec-modelled price-comparison view carries the group
minimum in `min_price`. -/
theorem specRows_min_price (members : List (List Char × List Char × ℚ))
    (r : ViewRow) (hr : r ∈ specPriceComparisonRows members) :
    r.min_price = memberPriceMin members ∧
    ∃ m ∈ members, r.price = m.2.2 := by
  unfold specPriceComparisonRows at hr
  unfold memberPriceMin
  cases hm : members.map (fun m => m.2.2) with
  | nil => rw [hm] at hr; cases hr
  | cons p0 prest =>
    rw [hm] at hr
    rcases List.mem_map.mp hr with ⟨m, hmmem, rfl⟩
    refine ⟨rfl, m, (stableSortBy_mem _ _ _).mp hmmem, rfl⟩

/-- Conversely, every member's price appears among the view rows' prices. -/
theorem specRows_price_surjective (members : List (List Char × List Char × ℚ))
    (m : List Char × List Char × ℚ) (hm : m ∈ members) :
    ∃ r ∈ specPriceComparisonRows members, r.price = m.2.2 := by
  unfold specPriceComparisonRows
  cases hmap : members.map (fun m2 => m2.2.2) with
  | nil =>
    have : m.2.2 ∈ members.map (fun m2 => m2.2.2) :=
      List.mem_map_of_mem _ hm
    rw [hmap] at this
    cases this
  | cons p0 prest =>
    have hsorted : m ∈ stableSortBy (fun a b => decide (a.2.2 < b.2.2))
        members := (stableSortBy_mem _ _ _).mpr hm
    exact ⟨_, List.mem_map_of_mem _ hsorted, rfl⟩

end DuckDBEngine

/-- C3.  Price stats correctness on the grouped search path of the DuckDB
engine: for every result group, the reported `min` is at most every priced
member's price, the reported `max` at least it, and the average lies in
`[min, max]`; and in the per-product price analysis of
`get_price_comparison`, over the spec-modelled `PriceComparisonView` rows of
a group, exactly the members whose price equals the group minimum carry
`is_best_deal = true` (ties allowed). -/
theorem C3_price_stats (md5hex : List Char → List Char)
    (rows : List DuckDBEngine.Row) (query : List Char) (lim off : Nat)
    (g : DuckDBEngine.DGroup)
    (hg : g ∈ (DuckDBEngine.create_dynamic_groups md5hex rows query lim
      off).1)
    (gid : List Char) (members : List (List Char × List Char × ℚ))
    (gd : DuckDBEngine.PCGroupData) (prods : List DuckDBEngine.PCProduct)
    (hpc : DuckDBEngine.get_price_comparison gid
      (DuckDBEngine.specPriceComparisonRows members) = some (gd, prods)) :
    ((∀ p ∈ g.products, ∀ v : ℚ, p.price = some v →
        g.price_min ≤ v ∧ v ≤ g.price_max) ∧
      g.price_min ≤ g.price_avg ∧ g.price_avg ≤ g.price_max) ∧
    (∀ pr ∈ prods, (pr.is_best_deal = true ↔
      pr.price = DuckDBEngine.memberPriceMin members)) := by
  constructor
  · have hmem : ∃ entry, DuckDBEngine.buildGroup md5hex entry = some g := by
      simp only [DuckDBEngine.create_dynamic_groups] at hg
      exact DuckDBEngine.mem_groupFold md5hex _ [] g (by simp)
        ((stableSortBy_mem _ _ _).mp
          (List.mem_of_mem_drop (List.mem_of_mem_take hg)))
    rcases hmem with ⟨entry, hentry⟩
    exact DuckDBEngine.buildGroup_sound md5hex entry g hentry
  · intro pr hpr
    unfold DuckDBEngine.get_price_comparison at hpc
    cases hres : DuckDBEngine.specPriceComparisonRows members with
    | nil => rw [hres] at hpc; cases hpc
    | cons first rest =>
      rw [hres] at hpc
      have hgd : gd.price_min = first.min_price := by
        cases hpc
        rfl
      have hprods : prods = (first :: rest).map (fun result =>
          { id := result.product_id
            title := result.title
            price := result.price
            diff_from_avg := result.price_diff_from_avg
            percentile := result.price_percentile
            is_best_deal := decide (result.price = first.min_price)
            is_worst_deal := decide (result.price = first.max_price)
            : DuckDBEngine.PCProduct }) := by
        cases hpc
        rfl
      have hfirstmin : first.min_price = DuckDBEngine.memberPriceMin
          members := by
        have := DuckDBEngine.specRows_min_price members first
          (by rw [hres]; exact List.mem_cons_self _ _)
        exact this.1
      rw [hprods] at hpr
      rcases List.mem_map.mp hpr with ⟨r, hrmem, rfl⟩
      simp only [decide_eq_true_eq, hfirstmin]

/-- C3 witness: the theorem applied to a concrete one-row grouping and a
concrete two-member price-comparison view. -/
theorem C3_price_stats_witness :
    ((∀ p ∈ (⟨"vit d".data, "Vit D".data,
        [⟨"p1".data, "vit d".data, some "vit d".data, some 5,
          some "v1".data, none, none⟩],
        5, 5, 5, 0, 1, 1, none, none, none⟩ :
          DuckDBEngine.DGroup).products, ∀ v : ℚ, p.price = some v →
        (5 : ℚ) ≤ v ∧ v ≤ 5) ∧
      (5 : ℚ) ≤ 5 ∧ (5 : ℚ) ≤ 5) ∧
    (∀ pr ∈ [(⟨"p1".data, "vd".data, 5, -1, 0, true, false⟩ :
        DuckDBEngine.PCProduct),
      ⟨"p2".data, "vd".data, 7, 1, 100, false, true⟩],
      (pr.is_best_deal = true ↔ pr.price =
        DuckDBEngine.memberPriceMin
          [("p1".data, "vd".data, 5), ("p2".data, "vd".data, 7)])) :=
  C3_price_stats (fun s => s)
    [⟨"p1".data, "vit d".data, some "vit d".data, some 5, some "v1".data,
      none, none⟩]
    "vit".data 100 0
    ⟨"vit d".data, "Vit D".data,
      [⟨"p1".data, "vit d".data, some "vit d".data, some 5, some "v1".data,
        none, none⟩],
      5, 5, 5, 0, 1, 1, none, none, none⟩
    (by with_unfolding_all decide)
    "g1".data [("p1".data, "vd".data, 5), ("p2".data, "vd".data, 7)]
    ⟨"g1".data, [], 2, 1, 5, 7, 6, 2⟩
    [⟨"p1".data, "vd".data, 5, -1, 0, true, false⟩,
     ⟨"p2".data, "vd".data, 7, 1, 100, false, true⟩]
    (by with_unfolding_all decide)

namespace SimilarityMatcher

/-- Best-scores entry: product id, best score, that score's name. -/
abbrev BEntry := List Char × ℚ × List Char

theorem bestUpdate_cons_ne (e : BEntry) (rest : List BEntry) (h : Hit)
    (he : e.1 ≠ h.pid) :
    bestUpdate (e :: rest) h = e :: bestUpdate rest h := by
  unfold bestUpdate
  simp only [bestUpdate.go, he, if_false]
  cases hgo : bestUpdate.go h rest with
  | none => simp [hgo]
  | some r => simp [hgo]

theorem bestUpdate_cons_eq (e : BEntry) (rest : List BEntry) (h : Hit)
    (he : e.1 = h.pid) :
    bestUpdate (e :: rest) h =
      (if h.score > e.2.1 then ((h.pid, h.score, h.name) : BEntry) else e)
        :: rest := by
  unfold bestUpdate
  simp only [bestUpdate.go, he, if_true, if_pos rfl]
  by_cases hs : h.score > e.2.1
  · simp [hs]
  · simp [hs]

theorem bestUpdate_shape (best : List BEntry) (h : Hit) :
    ((∀ e ∈ best, e.1 ≠ h.pid) ∧
      bestUpdate best h = best ++ [(h.pid, h.score, h.name)]) ∨
    (∃ pre e post, best = pre ++ e :: post ∧ e.1 = h.pid ∧
      (∀ e2 ∈ pre, e2.1 ≠ h.pid) ∧
      bestUpdate best h = pre ++
        (if h.score > e.2.1 then ((h.pid, h.score, h.name) : BEntry) else e)
          :: post) := by
  induction best with
  | nil => left; exact ⟨by simp, rfl⟩
  | cons e rest ih =>
    by_cases he : e.1 = h.pid
    · right
      exact ⟨[], e, rest, by simp, he, by simp, by
        rw [bestUpdate_cons_eq e rest h he]; simp⟩
    · rcases ih with ⟨habs, heq⟩ | ⟨pre, e2, post, hsplit, hkey, hpre, heq⟩
      · left
        refine ⟨?_, ?_⟩
        · intro e3 he3
          rcases List.mem_cons.mp he3 with rfl | hmem
          · exact he
          · exact habs e3 hmem
        · rw [bestUpdate_cons_ne e rest h he, heq]
          simp
      · right
        refine ⟨e :: pre, e2, post, by rw [hsplit]; simp, hkey, ?_, ?_⟩
        · intro e3 he3
          rcases List.mem_cons.mp he3 with rfl | hmem
          · exact he
          · exact hpre e3 hmem
        · rw [bestUpdate_cons_ne e rest h he, heq]
          simp

theorem mem_bestUpdate (best : List BEntry) (h : Hit) (e : BEntry)
    (he : e ∈ bestUpdate best h) :
    e ∈ best ∨ e = (h.pid, h.score, h.name) := by
  rcases bestUpdate_shape best h with ⟨_, heq⟩ |
    ⟨pre, e2, post, hsplit, _, _, heq⟩
  · rw [heq] at he
    rcases List.mem_append.mp he with hm | hm
    · exact Or.inl hm
    · exact Or.inr (List.mem_singleton.mp hm)
  · rw [heq] at he
    rcases List.mem_append.mp he with hm | hm
    · exact Or.inl (by rw [hsplit]; exact List.mem_append_left _ hm)
    · rcases List.mem_cons.mp hm with rfl | hm2
      · by_cases hs : h.score > e2.2.1
        · rw [if_pos hs]; right; rfl
        · rw [if_neg hs]; left; rw [hsplit]
          exact List.mem_append_right _ (List.mem_cons_self _ _)
      · refine Or.inl ?_
        rw [hsplit]
        exact List.mem_append_right _ (List.mem_cons_of_mem _ hm2)

/-- Invariant of the best-scores fold of
`_combine_and_deduplicate_results`: entry keys are distinct, every processed
hit's id has an entry, and each entry carries a score/name pair attained by
some processed hit of its id and dominating all of them. -/
def BInv (processed : List Hit) (best : List BEntry) : Prop :=
  (best.map (fun e => e.1)).Pairwise (fun a b => a ≠ b) ∧
  (∀ h ∈ processed, ∃ e ∈ best, e.1 = h.pid) ∧
  (∀ e ∈ best,
    (∃ h ∈ processed, h.pid = e.1 ∧ h.score = e.2.1 ∧ h.name = e.2.2) ∧
    (∀ h ∈ processed, h.pid = e.1 → h.score ≤ e.2.1))

theorem BInv_step (processed : List Hit) (best : List BEntry) (h : Hit)
    (hI : BInv processed best) :
    BInv (processed ++ [h]) (bestUpdate best h) := by
  obtain ⟨hnd, hcov, hent⟩ := hI
  rcases bestUpdate_shape best h with ⟨habs, heq⟩ |
    ⟨pre, e0, post, hsplit, hkey, hpre, heq⟩
  · rw [heq]
    refine ⟨?_, ?_, ?_⟩
    · rw [List.map_append, List.pairwise_append]
      refine ⟨hnd, by simp, ?_⟩
      intro a ha b hb
      rcases List.mem_map.mp ha with ⟨e, hemem, rfl⟩
      rcases List.mem_map.mp hb with ⟨e2, he2, rfl⟩
      rcases List.mem_singleton.mp he2 with rfl
      exact habs e hemem
    · intro h2 hh2
      rcases List.mem_append.mp hh2 with hm | hm
      · rcases hcov h2 hm with ⟨e, hemem, hekey⟩
        exact ⟨e, List.mem_append_left _ hemem, hekey⟩
      · rcases List.mem_singleton.mp hm with rfl
        exact ⟨(h2.pid, h2.score, h2.name),
          List.mem_append_right _ (List.mem_singleton_self _), rfl⟩
    · intro e hemem
      rcases List.mem_append.mp hemem with hm | hm
      · obtain ⟨⟨hw, hwmem, hwprops⟩, hdom⟩ := hent e hm
        refine ⟨⟨hw, List.mem_append_left _ hwmem, hwprops⟩, ?_⟩
        intro h2 hh2 hpid
        rcases List.mem_append.mp hh2 with hm2 | hm2
        · exact hdom h2 hm2 hpid
        · rcases List.mem_singleton.mp hm2 with rfl
          exact absurd hpid.symm (habs e hm)
      · rcases List.mem_singleton.mp hm with rfl
        refine ⟨⟨h, List.mem_append_right _ (List.mem_singleton_self _),
          rfl, rfl, rfl⟩, ?_⟩
        intro h2 hh2 hpid
        rcases List.mem_append.mp hh2 with hm2 | hm2
        · rcases hcov h2 hm2 with ⟨e2, he2mem, he2key⟩
          exact absurd (he2key.trans hpid) (habs e2 he2mem)
        · rcases List.mem_singleton.mp hm2 with rfl
          exact le_refl _
  · have hukey : (if h.score > e0.2.1 then
        ((h.pid, h.score, h.name) : BEntry) else e0).1 = e0.1 := by
      by_cases hs : h.score > e0.2.1
      · rw [if_pos hs, hkey]
      · rw [if_neg hs]
    have huscore : h.score ≤ (if h.score > e0.2.1 then
        ((h.pid, h.score, h.name) : BEntry) else e0).2.1 ∧
        e0.2.1 ≤ (if h.score > e0.2.1 then
          ((h.pid, h.score, h.name) : BEntry) else e0).2.1 := by
      by_cases hs : h.score > e0.2.1
      · rw [if_pos hs]; exact ⟨le_refl _, le_of_lt hs⟩
      · rw [if_neg hs]; exact ⟨le_of_not_lt hs, le_refl _⟩
    have hpostkeys : ∀ e2 ∈ post, e0.1 ≠ e2.1 := by
      have := hnd
      rw [hsplit, List.map_append, List.pairwise_append] at this
      obtain ⟨_, hcons, _⟩ := this
      rw [List.map_cons, List.pairwise_cons] at hcons
      intro e2 he2
      exact hcons.1 e2.1 (List.mem_map_of_mem _ he2)
    rw [heq]
    refine ⟨?_, ?_, ?_⟩
    · have hkeys : (pre ++ (if h.score > e0.2.1 then
          ((h.pid, h.score, h.name) : BEntry) else e0) :: post).map
          (fun e => e.1) = (pre ++ e0 :: post).map (fun e => e.1) := by
        simp only [List.map_append, List.map_cons, hukey]
      rw [hkeys, ← hsplit]
      exact hnd
    · intro h2 hh2
      rcases List.mem_append.mp hh2 with hm | hm
      · rcases hcov h2 hm with ⟨e2, he2mem, he2key⟩
        rw [hsplit] at he2mem
        rcases List.mem_append.mp he2mem with hm2 | hm2
        · exact ⟨e2, List.mem_append_left _ hm2, he2key⟩
        · rcases List.mem_cons.mp hm2 with rfl | hm3
          · refine ⟨_, List.mem_append_right _ (List.mem_cons_self _ _), ?_⟩
            rw [hukey, he2key]
          · exact ⟨e2, List.mem_append_right _ (List.mem_cons_of_mem _ hm3),
              he2key⟩
      · rcases List.mem_singleton.mp hm with rfl
        refine ⟨_, List.mem_append_right _ (List.mem_cons_self _ _), ?_⟩
        rw [hukey, hkey]
    · intro e hemem
      rcases List.mem_append.mp hemem with hm | hm
      · have hene : e.1 ≠ h.pid := hpre e hm
        have hmemold : e ∈ best := by
          rw [hsplit]; exact List.mem_append_left _ hm
        obtain ⟨⟨hw, hwmem, hwprops⟩, hdom⟩ := hent e hmemold
        refine ⟨⟨hw, List.mem_append_left _ hwmem, hwprops⟩, ?_⟩
        intro h2 hh2 hpid
        rcases List.mem_append.mp hh2 with hm2 | hm2
        · exact hdom h2 hm2 hpid
        · rcases List.mem_singleton.mp hm2 with rfl
          exact absurd hpid.symm hene
      · rcases List.mem_cons.mp hm with rfl | hm2
        · have he0mem : e0 ∈ best := by
            rw [hsplit]
            exact List.mem_append_right _ (List.mem_cons_self _ _)
          obtain ⟨⟨hw, hwmem, hwprops⟩, hdom⟩ := hent e0 he0mem
          constructor
          · by_cases hs : h.score > e0.2.1
            · rw [if_pos hs]
              exact ⟨h, List.mem_append_right _ (List.mem_singleton_self _),
                rfl, rfl, rfl⟩
            · rw [if_neg hs]
              exact ⟨hw, List.mem_append_left _ hwmem, hwprops⟩
          · intro h2 hh2 hpid
            rcases List.mem_append.mp hh2 with hm2 | hm2
            · refine le_trans (hdom h2 hm2 ?_) huscore.2
              rw [hpid, hukey, hkey]
            · rcases List.mem_singleton.mp hm2 with rfl
              exact huscore.1
        · have hene : e.1 ≠ h.pid := by
            rw [← hkey]
            intro hx
            exact hpostkeys e hm2 hx.symm
          have hmemold : e ∈ best := by
            rw [hsplit]
            exact List.mem_append_right _ (List.mem_cons_of_mem _ hm2)
          obtain ⟨⟨hw, hwmem, hwprops⟩, hdom⟩ := hent e hmemold
          refine ⟨⟨hw, List.mem_append_left _ hwmem, hwprops⟩, ?_⟩
          intro h2 hh2 hpid
          rcases List.mem_append.mp hh2 with hm2b | hm2b
          · exact hdom h2 hm2b hpid
          · rcases List.mem_singleton.mp hm2b with rfl
            exact absurd hpid.symm hene

theorem BInv_fold (hits : List Hit) (processed : List Hit)
    (best : List BEntry) (hI : BInv processed best) :
    BInv (processed ++ hits) (hits.foldl bestUpdate best) := by
  induction hits generalizing processed best with
  | nil => simpa using hI
  | cons h rest ih =>
    have h3 := ih (processed ++ [h]) (bestUpdate best h)
      (BInv_step processed best h hI)
    simpa [List.append_assoc] using h3

theorem combine_spec (hits : List Hit) (thr : ℚ) :
    (combine_and_deduplicate_results hits thr).Pairwise
      (fun a b => b.score ≤ a.score) ∧
    ∀ h ∈ combine_and_deduplicate_results hits thr,
      thr ≤ h.score ∧
      (∃ h2 ∈ hits, h2.pid = h.pid ∧ h2.score = h.score ∧ h2.name = h.name) ∧
      (∀ h2 ∈ hits, h2.pid = h.pid → h2.score ≤ h.score) := by
  have hInv : BInv hits (hits.foldl bestUpdate []) := by
    have h0 : BInv [] [] := by
      refine ⟨by simp, by simp, by simp⟩
    simpa using BInv_fold hits [] [] h0
  obtain ⟨hnd, hcov, hent⟩ := hInv
  constructor
  · unfold combine_and_deduplicate_results
    have hneg : ∀ a b c : Hit, decide (a.score < b.score) = false →
        decide (b.score < c.score) = false →
        decide (a.score < c.score) = false := by
      intro a b c h1 h2
      simp only [decide_eq_false_iff_not, not_lt] at h1 h2 ⊢
      linarith
    have hasym : ∀ a b : Hit, decide (b.score < a.score) = true →
        decide (a.score < b.score) = false := by
      intro a b h1
      simp only [decide_eq_true_eq] at h1
      simp only [decide_eq_false_iff_not, not_lt]
      linarith
    refine List.Pairwise.imp ?_
      (stableSortBy_pairwise (fun a b => decide (b.score < a.score))
        hneg hasym _)
    intro a b hab
    simp only [decide_eq_false_iff_not, not_lt] at hab
    exact hab
  · intro h hmem
    unfold combine_and_deduplicate_results at hmem
    have hmem2 := (stableSortBy_mem _ _ _).mp hmem
    rcases List.mem_map.mp hmem2 with ⟨e, hemem, rfl⟩
    have hethr : decide (e.2.1 ≥ thr) = true := (List.mem_filter.mp hemem).2
    have hebase : e ∈ hits.foldl bestUpdate [] := (List.mem_filter.mp hemem).1
    obtain ⟨⟨hw, hwmem, hw1, hw2, hw3⟩, hdom⟩ := hent e hebase
    refine ⟨by simpa using hethr, ⟨hw, hwmem, by simp [hw1, hw2, hw3]⟩, ?_⟩
    intro h2 hh2 hpid
    exact hdom h2 hh2 (by simpa using hpid)

/-- The three tiers' combined hit list for one query (the argument of
`_combine_and_deduplicate_results` inside `find_similar_products`). -/
def allTierHits (m : Matcher) (query : List Char) (k : Nat) : List Hit :=
  exact_word_matches m (pyStrip (pyLower query))
      (pyStrip (pyLower query)).length ++
    fuzzy_search m query k (pyStrip (pyLower query)).length ++
    semantic_search m query k (pyStrip (pyLower query)).length

end SimilarityMatcher

/-- C5.  Candidate combination: `find_similar_products` groups the exact,
fuzzy and semantic hits by product id keeping, per id, the maximum score seen
across all tiers (the returned score is attained by some hit of that id and
dominates every hit of that id — never an average), drops candidates below
the query-length-adaptive threshold, sorts the survivors by score descending,
and returns at most `k` results. -/
theorem C5_candidate_combination (m : SimilarityMatcher.Matcher)
    (query : List Char) (k : Nat) (t : ℚ) :
    (SimilarityMatcher.find_similar_products m query k t).length ≤ k ∧
    (SimilarityMatcher.find_similar_products m query k t).Pairwise
      (fun a b => b.score ≤ a.score) ∧
    (∀ h ∈ SimilarityMatcher.find_similar_products m query k t,
      (if (pyStrip (pyLower query)).length ≤ 2 then max (2 / 10) (t * (3 / 10))
        else if (pyStrip (pyLower query)).length ≤ 4 then
          max (4 / 10) (t * (6 / 10))
        else t) ≤ h.score) ∧
    (∀ h ∈ SimilarityMatcher.find_similar_products m query k t,
      (∃ h2 ∈ SimilarityMatcher.allTierHits m query k,
        h2.pid = h.pid ∧ h2.score = h.score ∧ h2.name = h.name) ∧
      (∀ h2 ∈ SimilarityMatcher.allTierHits m query k,
        h2.pid = h.pid → h2.score ≤ h.score)) := by
  have hfind : SimilarityMatcher.find_similar_products m query k t =
      (SimilarityMatcher.combine_and_deduplicate_results
        (SimilarityMatcher.allTierHits m query k)
        (if (pyStrip (pyLower query)).length ≤ 2 then
          max (2 / 10) (t * (3 / 10))
        else if (pyStrip (pyLower query)).length ≤ 4 then
          max (4 / 10) (t * (6 / 10))
        else t)).take k := rfl
  have hspec := SimilarityMatcher.combine_spec
    (SimilarityMatcher.allTierHits m query k)
    (if (pyStrip (pyLower query)).length ≤ 2 then max (2 / 10) (t * (3 / 10))
      else if (pyStrip (pyLower query)).length ≤ 4 then
        max (4 / 10) (t * (6 / 10))
      else t)
  refine ⟨?_, ?_, ?_, ?_⟩
  · rw [hfind]
    exact List.length_take_le _ _
  · rw [hfind]
    exact hspec.1.sublist (List.take_sublist _ _)
  · intro h hmem
    rw [hfind] at hmem
    exact (hspec.2 h (List.mem_of_mem_take hmem)).1
  · intro h hmem
    rw [hfind] at hmem
    exact (hspec.2 h (List.mem_of_mem_take hmem)).2

/-- C5 witness: the combination properties at a concrete matcher and
query. -/
theorem C5_candidate_combination_witness :
    (SimilarityMatcher.find_similar_products
      ⟨["vitamin d".data], ["p1".data], none⟩ "vitamin".data 3
      (8 / 10)).length ≤ 3 ∧
    (SimilarityMatcher.find_similar_products
      ⟨["vitamin d".data], ["p1".data], none⟩ "vitamin".data 3
      (8 / 10)).Pairwise (fun a b => b.score ≤ a.score) ∧
    (∀ h ∈ SimilarityMatcher.find_similar_products
      ⟨["vitamin d".data], ["p1".data], none⟩ "vitamin".data 3 (8 / 10),
      (if (pyStrip (pyLower "vitamin".data)).length ≤ 2 then
        max (2 / 10) ((8 / 10 : ℚ) * (3 / 10))
        else if (pyStrip (pyLower "vitamin".data)).length ≤ 4 then
          max (4 / 10) ((8 / 10 : ℚ) * (6 / 10))
        else (8 / 10 : ℚ)) ≤ h.score) ∧
    (∀ h ∈ SimilarityMatcher.find_similar_products
      ⟨["vitamin d".data], ["p1".data], none⟩ "vitamin".data 3 (8 / 10),
      (∃ h2 ∈ SimilarityMatcher.allTierHits
        ⟨["vitamin d".data], ["p1".data], none⟩ "vitamin".data 3,
        h2.pid = h.pid ∧ h2.score = h.score ∧ h2.name = h.name) ∧
      (∀ h2 ∈ SimilarityMatcher.allTierHits
        ⟨["vitamin d".data], ["p1".data], none⟩ "vitamin".data 3,
        h2.pid = h.pid → h2.score ≤ h.score)) :=
  C5_candidate_combination ⟨["vitamin d".data], ["p1".data], none⟩
    "vitamin".data 3 (8 / 10)

/-- C9 witness: the degradation equality at a concrete matcher. -/
theorem C9_semantic_tier_degrades_witness :
    SimilarityMatcher.semantic_search ⟨["vitamin d".data], ["p1".data], none⟩
      "vit".data 5 ((pyStrip (pyLower "vit".data)).length) = [] ∧
    SimilarityMatcher.find_similar_products
      ⟨["vitamin d".data], ["p1".data], none⟩ "vit".data 5 (8 / 10) =
      (SimilarityMatcher.combine_and_deduplicate_results
        (SimilarityMatcher.exact_word_matches
            ⟨["vitamin d".data], ["p1".data], none⟩
            (pyStrip (pyLower "vit".data))
            (pyStrip (pyLower "vit".data)).length ++
          SimilarityMatcher.fuzzy_search
            ⟨["vitamin d".data], ["p1".data], none⟩ "vit".data 5
            (pyStrip (pyLower "vit".data)).length)
        (if (pyStrip (pyLower "vit".data)).length ≤ 2 then
          max (2 / 10) ((8 / 10 : ℚ) * (3 / 10))
          else if (pyStrip (pyLower "vit".data)).length ≤ 4 then
            max (4 / 10) ((8 / 10 : ℚ) * (6 / 10))
          else (8 / 10 : ℚ))).take 5 :=
  C9_semantic_tier_degrades ["vitamin d".data] ["p1".data] "vit".data 5
    (8 / 10)

/-- C6 witness: the empty-input fallback at a concrete brand argument. -/
theorem C6_normalize_empty_fallback_witness :
    PharmaPreprocessor.preprocess_product [] (some "solgar".data) =
      PharmaPreprocessor.empty_identity ∧
    PharmaPreprocessor.empty_identity.normalized_name = ([] : List Char) ∧
    PharmaPreprocessor.empty_identity.base_name = ([] : List Char) ∧
    PharmaPreprocessor.empty_identity.brand = ([] : List Char) ∧
    PharmaPreprocessor.empty_identity.strength = ([] : List Char) ∧
    PharmaPreprocessor.empty_identity.form = ([] : List Char) ∧
    PharmaPreprocessor.empty_identity.size = ([] : List Char) ∧
    PharmaPreprocessor.empty_identity.variant = ([] : List Char) ∧
    PharmaPreprocessor.empty_identity.category = ([] : List Char) ∧
    PharmaPreprocessor.empty_identity.search_tokens =
      ([] : List (List Char)) ∧
    PharmaPreprocessor.empty_identity.grouping_key = ([] : List Char) :=
  C6_normalize_empty_fallback (some "solgar".data)

/-- C2 witness for the amended determinism theorem: two sequential calls at a
concrete environment, snapshot and query return the same page. -/
theorem C2_search_deterministic_fixed_env_witness :
    (PharmaSearchEngine.search ⟨fun s => s, fun _ => 0, none⟩
      ⟨fun _ _ => [], [], fun _ => [], fun _ _ _ _ => ([], 0)⟩
      ((PharmaSearchEngine.search ⟨fun s => s, fun _ => 0, none⟩
        ⟨fun _ _ => [], [], fun _ => [], fun _ _ _ _ => ([], 0)⟩
        [] 0 "cink".data none true 100 0 false).2)
      400 "cink".data none true 100 0 false).1 =
      (PharmaSearchEngine.search ⟨fun s => s, fun _ => 0, none⟩
        ⟨fun _ _ => [], [], fun _ => [], fun _ _ _ _ => ([], 0)⟩
        [] 0 "cink".data none true 100 0 false).1 :=
  C2_search_deterministic_fixed_env ⟨fun s => s, fun _ => 0, none⟩
    ⟨fun _ _ => [], [], fun _ => [], fun _ _ _ _ => ([], 0)⟩
    "cink".data none true 100 0 false 0 400

/-- C4 witness for the amended ordering theorem: the pairwise ordering at a
concrete grouping run. -/
theorem C4_group_ordering_witness :
    (PharmaSearchEngine.group_products_hybrid (fun _ => 0) none
      [⟨"A".data, "cink 500 mg".data, 10, "v1".data, "V1".data,
        some "solgar".data, none, [], []⟩]
      ["A".data]).Pairwise
      (fun g1 g2 => g1.search_rank < g2.search_rank ∨
        (g1.search_rank = g2.search_rank ∧
          g2.vendor_count ≤ g1.vendor_count)) :=
  C4_group_ordering (fun _ => 0) none
    [⟨"A".data, "cink 500 mg".data, 10, "v1".data, "V1".data,
      some "solgar".data, none, [], []⟩]
    ["A".data]
